import Mathlib

/-!
JsSigScraper: a shallow embedding of `JsSigScraper.go`.

The program downloads a page, collects the `src` of every `script` tag, downloads every
script concurrently and prints the name of the first configured signature whose regular
expression matches the script.

Conventions of the embedding.

* A Go `error` is its message; `none` stands for `nil`.  A Go function of result type
  `(T, error)` becomes a function into `T × Option GoError`, so that the value returned
  next to a non-nil error is visible.
* Calls into packages that are not part of the repository (`regexp`, `net/url`, `net/http`,
  `golang.org/x/net/html`, `os`, `toml`) are parameters of the embedded functions.  A library
  function returning a pointer and an error is a function into `Except GoError _`.
* Side effects (lines printed, log lines, requests issued, file-system calls) are returned
  as explicit traces.
-/

set_option autoImplicit false

namespace JsSigScraper

/-- A Go `error`, represented by its message. -/
abbrev GoError := String

/-! ## Data model (lines 21-32) -/

/-- The struct `JavaScriptSignature` (lines 21-24). -/
structure JavaScriptSignature where
  Name : String
  Regex : String
  deriving DecidableEq, Repr

/-- The struct `Configuration` (lines 26-28). -/
structure Configuration where
  Signatures : List JavaScriptSignature
  deriving DecidableEq, Repr

/-- The package variable `defaultUserAgent` (line 31). -/
def defaultUserAgent : String := "Mozilla/5.0"

/-! ## The matching loop (lines 75-80) -/

/-- The type of `regexp.MatchString(pattern, s)`: whether the pattern is found in `s`, and
the compile error of the pattern, if any. -/
abbrev RegexpMatchString := String → String → Bool × Option GoError

/-- What one run of the matching loop does: the lines handed to `fmt.Println`, and the
patterns handed to `regexp.MatchString`, both in order. -/
structure MatchTrace where
  printed : List String
  evaluated : List String
  deriving DecidableEq, Repr

/-- The loop `for _, signature := range config.Signatures` of lines 75-80: the error of
`regexp.MatchString` is dropped (`matched, _ :=`), the first signature with `matched`
is printed and the loop is left (`break`). -/
def matchLoop (MatchString : RegexpMatchString) (content : String) :
    List JavaScriptSignature → MatchTrace
  | [] => { printed := [], evaluated := [] }
  | signature :: rest =>
    if (MatchString signature.Regex content).1 then
      { printed := [signature.Name], evaluated := [signature.Regex] }
    else
      let later := matchLoop MatchString content rest
      { printed := later.printed, evaluated := signature.Regex :: later.evaluated }

/-- The characters with a special meaning in the syntax of package `regexp`. -/
def regexpMetaChars : List Char :=
  ['\\', '.', '+', '*', '?', '(', ')', '|', '[', ']', '\x7b', '\x7d', '^', '$']

/-- A table of `regexp.MatchString` on the patterns the examples use.  A pattern without
metacharacters is found exactly when it is a substring of the content.  The pattern `(`
has an unclosed group, `regexp.Compile` rejects it and `MatchString` returns `false` with
the error.  Any other pattern is outside the table and is answered like `(`. -/
def literalMatchString : RegexpMatchString := fun pattern content =>
  if pattern.toList.all (fun c => !(regexpMetaChars.contains c)) then
    (decide (pattern.toList <:+: content.toList), none)
  else
    (false, some ("error parsing regexp: " ++ pattern))

/-! ## Configuration loading (lines 95-101) -/

/-- The type of `toml.DecodeFile(configFile, &config)`: the value left in `config`, and the
error. -/
abbrev TomlDecodeFile := String → Configuration × Option GoError

/-- The function `readConfig` (lines 95-101). -/
def readConfig (DecodeFile : TomlDecodeFile) (configFile : String) :
    Configuration × Option GoError :=
  match DecodeFile configFile with
  | (_, some err) => ({ Signatures := [] }, some err)
  | (config, none) => (config, none)

/-! ## HTTP (lines 103-127 and 163-187) -/

/-- The part of `http.Request` the program sets. -/
structure Request where
  Method : String
  URL : String
  Header : List (String × String)
  deriving DecidableEq, Repr

/-- The call `request.Header.Set(key, value)`: the entries of the key are replaced. -/
def Request.HeaderSet (request : Request) (key value : String) : Request :=
  { request with Header := request.Header.filter (fun kv => kv.1 != key) ++ [(key, value)] }

/-- The part of `http.Response` the program reads; `Body` is what
`io.ReadAll(response.Body)` returns. -/
structure Response where
  StatusCode : Int
  Body : String × Option GoError
  deriving DecidableEq, Repr

/-- The constant `http.StatusOK`. -/
def StatusOK : Int := 200

/-- The network as one call of a fetch function meets it: whether `http.NewRequest`
accepts the URL, and what `client.Do` returns for a request under the given timeout (in
seconds).  `Do` stands for the whole exchange, redirects included, and returns the final
response. -/
structure Network where
  NewRequestError : String → String → Option GoError
  Do : Nat → Request → Except GoError Response

/-- The call `http.NewRequest(method, url, nil)`. -/
def Network.NewRequest (net : Network) (method url : String) : Except GoError Request :=
  match net.NewRequestError method url with
  | some err => .error err
  | none => .ok { Method := method, URL := url, Header := [] }

/-- What a fetch function returns, `(body, err)`, with the requests it handed to
`client.Do`, in order. -/
structure FetchResult where
  body : String
  err : Option GoError
  issued : List Request
  deriving DecidableEq, Repr

/-- The function `fetchHTML` (lines 103-127). -/
def fetchHTML (net : Network) (url userAgent : String) : FetchResult :=
  match net.NewRequest "GET" url with
  | .error err => { body := "", err := some err, issued := [] }
  | .ok request =>
    let request := request.HeaderSet "User-Agent" userAgent
    match net.Do 10 request with
    | .error err => { body := "", err := some err, issued := [request] }
    | .ok response =>
      if response.StatusCode ≠ StatusOK then
        { body := "",
          err := some ("HTTP request failed with status code: " ++ toString response.StatusCode),
          issued := [request] }
      else
        match response.Body with
        | (_, some err) => { body := "", err := some err, issued := [request] }
        | (htmlBytes, none) => { body := htmlBytes, err := none, issued := [request] }

/-- The function `fetchJavascript` (lines 163-187). -/
def fetchJavascript (net : Network) (jsURL userAgent : String) : FetchResult :=
  match net.NewRequest "GET" jsURL with
  | .error err => { body := "", err := some err, issued := [] }
  | .ok request =>
    let request := request.HeaderSet "User-Agent" userAgent
    match net.Do 10 request with
    | .error err => { body := "", err := some err, issued := [request] }
    | .ok response =>
      if response.StatusCode ≠ StatusOK then
        { body := "",
          err := some ("HTTP request failed with status code: " ++ toString response.StatusCode),
          issued := [request] }
      else
        match response.Body with
        | (_, some err) => { body := "", err := some err, issued := [request] }
        | (jsBytes, none) => { body := jsBytes, err := none, issued := [request] }

/-! ## Script extraction (lines 130-161) -/

/-- The token types of `golang.org/x/net/html`. -/
inductive TokenType where
  | ErrorToken
  | TextToken
  | StartTagToken
  | EndTagToken
  | SelfClosingTagToken
  | CommentToken
  | DoctypeToken
  deriving DecidableEq, Repr

/-- The struct `html.Attribute`. -/
structure Attribute where
  Namespace : String
  Key : String
  Val : String
  deriving DecidableEq, Repr

/-- The struct `html.Token`; `Kind` is its field `Type`. -/
structure Token where
  Kind : TokenType
  Data : String
  Attr : List Attribute
  deriving DecidableEq, Repr

/-- The type of the tokenizer: the tokens that the successive calls of `tokenizer.Next()`
and `tokenizer.Token()` yield for a document.  After the last token of the list `Next()`
returns `html.ErrorToken` (end of input), as it does at a token of kind `ErrorToken`. -/
abbrev HtmlTokenizer := String → List Token

/-- The functions of package `net/url` the program calls, over a type `U` of parsed URLs:
`url.Parse`, `base.ResolveReference(ref)`, `u.String()`, `u.Hostname()` and the field
`u.Path`. -/
structure URLPackage (U : Type) where
  Parse : String → Except GoError U
  ResolveReference : U → U → U
  Render : U → String
  Hostname : U → String
  Path : U → String

/-- The loop `for _, attr := range token.Attr` of lines 148-157, started with the URLs
collected so far: the new list, or the error that makes the function return. -/
def scanAttrs {U : Type} (url : URLPackage U) (base : U) :
    List Attribute → List String → Except GoError (List String)
  | [], jsURLs => .ok jsURLs
  | attr :: rest, jsURLs =>
    if attr.Key = "src" then
      match url.Parse attr.Val with
      | .error err => .error err
      | .ok scriptURL =>
        let absoluteURL := url.Render (url.ResolveReference base scriptURL)
        scanAttrs url base rest (jsURLs ++ [absoluteURL])
    else
      scanAttrs url base rest jsURLs

/-- The loop `for` of lines 140-160 over the tokens still to come, started with the URLs
collected so far. -/
def scanTokens {U : Type} (url : URLPackage U) (base : U) :
    List Token → List String → List String × Option GoError
  | [], jsURLs => (jsURLs, none)
  | token :: rest, jsURLs =>
    match token.Kind with
    | .ErrorToken => (jsURLs, none)
    | .StartTagToken | .SelfClosingTagToken =>
      if token.Data = "script" then
        match scanAttrs url base token.Attr jsURLs with
        | .error err => ([], some err)
        | .ok jsURLs => scanTokens url base rest jsURLs
      else
        scanTokens url base rest jsURLs
    | _ => scanTokens url base rest jsURLs

/-- The function `extractJSScriptURLs` (lines 130-161). -/
def extractJSScriptURLs {U : Type} (url : URLPackage U) (Tokenize : HtmlTokenizer)
    (htmlString baseURL : String) : List String × Option GoError :=
  match url.Parse baseURL with
  | .error err => ([], some err)
  | .ok base => scanTokens url base (Tokenize htmlString) []

/-! ## Saving a script (lines 189-216) -/

/-- The elements of a path between its separators, as `strings.Split(path, "/")` gives
them. -/
def splitSlash : List Char → List (List Char)
  | [] => [[]]
  | c :: cs =>
    if c = '/' then [] :: splitSlash cs
    else
      match splitSlash cs with
      | [] => [[c]]
      | e :: es => (c :: e) :: es

/-- The element loop of `filepath.Clean` on Unix, over the elements still to read and the
elements written so far, the last written first: an empty element and `.` are dropped,
`..` removes the last written element when there is one that is not itself `..`, is dropped
at the root, and is written otherwise. -/
def cleanElems (rooted : Bool) : List (List Char) → List (List Char) → List (List Char)
  | [], out => out
  | e :: rest, out =>
    if e = [] ∨ e = ['.'] then cleanElems rooted rest out
    else if e = ['.', '.'] then
      match out with
      | [] => if rooted then cleanElems rooted rest [] else cleanElems rooted rest [['.', '.']]
      | top :: below =>
        if top = ['.', '.'] then cleanElems rooted rest (['.', '.'] :: top :: below)
        else cleanElems rooted rest below
    else cleanElems rooted rest (e :: out)

/-- The function `filepath.Clean` on Unix, on the characters of the path. -/
def cleanChars (path : List Char) : List Char :=
  if path = [] then ['.']
  else
    let rooted := decide (path.head? = some '/')
    let elems := (cleanElems rooted (splitSlash path) []).reverse
    let out := (if rooted then ['/'] else []) ++ List.intercalate ['/'] elems
    if out = [] then ['.'] else out

/-- The function `filepath.Clean` on Unix. -/
def Clean (path : String) : String := String.mk (cleanChars path.toList)

/-- The function `filepath.Join` on Unix: the elements from the first non-empty one on are
joined with `/` and cleaned; without a non-empty element the result is empty. -/
def Join (elem : List String) : String :=
  match elem.dropWhile (fun e => decide (e = "")) with
  | [] => ""
  | rest => Clean (String.intercalate "/" rest)

/-- The function `filepath.Base` on Unix: the last element of the path, after trailing
slashes are removed; `.` for the empty path and `/` for a path of slashes only. -/
def Base (path : String) : String :=
  if path = "" then "."
  else
    let stripped := (path.toList.reverse.dropWhile (fun c => decide (c = '/'))).reverse
    let last := (stripped.reverse.takeWhile (fun c => decide (c ≠ '/'))).reverse
    if last = [] then "/" else String.mk last

/-- A call into the file system. -/
inductive FsCall where
  | MkdirAll (path : String) (perm : Nat)
  | WriteFile (name : String) (data : String) (perm : Nat)
  deriving DecidableEq, Repr

/-- The file system as one call of `saveJavascript` meets it: the errors of `os.MkdirAll`
and `os.WriteFile`. -/
structure FileSystem where
  MkdirAll : String → Nat → Option GoError
  WriteFile : String → String → Nat → Option GoError

/-- The function `getFilename` (lines 208-216): `(domain, filename, err)`. -/
def getFilename {U : Type} (url : URLPackage U) (jsURL : String) :
    String × String × Option GoError :=
  match url.Parse jsURL with
  | .error err => ("", "", some err)
  | .ok u =>
    let domain := url.Hostname u
    let filename := Base (url.Path u)
    (domain, filename, none)

/-- What `saveJavascript` returns, with the file-system calls it made, in order. -/
structure SaveResult where
  err : Option GoError
  calls : List FsCall
  deriving DecidableEq, Repr

/-- The function `saveJavascript` (lines 189-206). -/
def saveJavascript {U : Type} (url : URLPackage U) (fs : FileSystem)
    (jsURL content : String) : SaveResult :=
  match getFilename url jsURL with
  | (_, _, some err) => { err := some err, calls := [] }
  | (domain, filename, none) =>
    match fs.MkdirAll domain 0o755 with
    | some err => { err := some err, calls := [.MkdirAll domain 0o755] }
    | none =>
      let filename := Join [domain, filename]
      match fs.WriteFile filename content 0o644 with
      | some err =>
        { err := some err, calls := [.MkdirAll domain 0o755, .WriteFile filename content 0o644] }
      | none =>
        { err := none, calls := [.MkdirAll domain 0o755, .WriteFile filename content 0o644] }

/-! ## The goroutines and `main` (lines 34-93) -/

/-- What a goroutine does that can be observed from outside. -/
inductive Event where
  | Println (line : String)
  | LogPrintf (msg : String)
  | Save (jsURL content : String) (calls : List FsCall)
  deriving DecidableEq, Repr

/-- The environment one goroutine meets: the network at its fetch and the file system at
its save. -/
structure UnitWorld where
  net : Network
  fs : FileSystem

/-- The body of the goroutine started for `jsURL` (lines 66-88): the events it produces, in
order.  `Save` records the call of `saveJavascript` with its arguments and its file-system
calls. -/
def worker {U : Type} (MatchString : RegexpMatchString) (url : URLPackage U)
    (config : Configuration) (keepJS : Bool) (userAgent : String)
    (world : UnitWorld) (jsURL : String) : List Event :=
  let fetched := fetchJavascript world.net jsURL userAgent
  match fetched.err with
  | some err =>
    [.LogPrintf ("Error downloading JavaScript from " ++ jsURL ++ ": " ++ err ++ "\n")]
  | none =>
    let content := fetched.body
    (matchLoop MatchString content config.Signatures).printed.map Event.Println ++
      (if keepJS then
        let saved := saveJavascript url world.fs jsURL content
        Event.Save jsURL content saved.calls ::
          (match saved.err with
            | some err =>
              [.LogPrintf ("Error saving JavaScript from " ++ jsURL ++ ": " ++ err ++ "\n")]
            | none => [])
      else [])

/-- The goroutines of the loop of lines 64-89, one for every script URL, each with the
environment it meets. -/
def fanOut {U : Type} (MatchString : RegexpMatchString) (url : URLPackage U)
    (config : Configuration) (keepJS : Bool) (userAgent : String)
    (units : List (String × UnitWorld)) : List (List Event) :=
  units.map (fun unit => worker MatchString url config keepJS userAgent unit.2 unit.1)

/-- The runs of goroutines that share the output: `Interleaving ts tr` when `tr` is made
of the events of the traces `ts`, each trace in its own order, merged in any order.  It is
what `wg.Wait()` has seen when it returns. -/
inductive Interleaving {α : Type} : List (List α) → List α → Prop where
  | done (ts : List (List α)) : (∀ t ∈ ts, t = []) → Interleaving ts []
  | step (before after : List (List α)) (e : α) (t : List α) (tr : List α) :
      Interleaving (before ++ t :: after) tr →
      Interleaving (before ++ (e :: t) :: after) (e :: tr)

/-- The lines written to standard output in a trace. -/
def stdoutOf (tr : List Event) : List String :=
  tr.filterMap (fun ev => match ev with | .Println line => some line | _ => none)

/-- The calls of `saveJavascript` in a trace: URL and content. -/
def savesOf (tr : List Event) : List (String × String) :=
  tr.filterMap (fun ev => match ev with | .Save jsURL content _ => some (jsURL, content) | _ => none)

/-- The environment of one run of the program. -/
structure World where
  DecodeFile : TomlDecodeFile
  MatchString : RegexpMatchString
  Tokenize : HtmlTokenizer
  pageNet : Network
  unitWorld : Nat → UnitWorld

/-- How `main` ends its sequential part: with the usage line, with `log.Fatalf`, or with
the goroutines it starts and waits for. -/
inductive MainOutcome where
  | usage (line : String)
  | fatal (msg : String)
  | goroutines (traces : List (List Event))
  deriving DecidableEq, Repr

/-- The function `main` (lines 34-93) for given flag values; goroutine number `i` meets
`world.unitWorld i`. -/
def main {U : Type} (url : URLPackage U) (world : World)
    (urlFlag configFlag : String) (keepJS : Bool) (userAgent : String) : MainOutcome :=
  if urlFlag = "" ∨ configFlag = "" then
    .usage ("Usage: go run JsSigScraper.go -url <URL> -config <config-file> [-keepjs] " ++
      "[-useragent <user-agent>]")
  else
    match readConfig world.DecodeFile configFlag with
    | (_, some err) => .fatal ("Error reading configuration: " ++ err)
    | (config, none) =>
      let page := fetchHTML world.pageNet urlFlag userAgent
      match page.err with
      | some err => .fatal ("Error fetching HTML: " ++ err)
      | none =>
        match extractJSScriptURLs url world.Tokenize page.body urlFlag with
        | (_, some err) => .fatal ("Error extracting JavaScript URLs: " ++ err)
        | (javascriptURLs, none) =>
          .goroutines (fanOut world.MatchString url config keepJS userAgent
            (javascriptURLs.enum.map (fun p => (p.2, world.unitWorld p.1))))

/-! ## The URL resolver of the specification (section 4.1)

Package `net/url` is not part of the repository.  Where a statement is about what the
resolver itself returns, the resolver is the one the specification names: reference
resolution by RFC 3986, section 5. -/

/-- Modelled from the spec: a URL of the URL Resolver (section 4.1), whose parser and
resolver (`net/url`) are outside the repository.  It is a URI reference split into the five
components of RFC 3986; `none` is an undefined component. -/
structure RefURL where
  scheme : Option String
  authority : Option String
  path : String
  query : Option String
  fragment : Option String
  deriving DecidableEq, Repr

/-- Modelled from the spec: the output buffer of `remove_dot_segments` (RFC 3986, 5.2.4)
without its last segment and the `/` before it; the code of `net/url` is outside the
repository. -/
def removeLastSegment (out : List Char) : List Char :=
  ((out.reverse.dropWhile (fun c => decide (c ≠ '/'))).drop 1).reverse

/-- Modelled from the spec: the loop of `remove_dot_segments` (RFC 3986, 5.2.4, steps A to
E) over the input buffer and the output buffer, with one unit of fuel for a step; the code
of `net/url` is outside the repository. -/
def removeDotSegmentsAux : Nat → List Char → List Char → List Char
  | 0, _, out => out
  | _, [], out => out
  | n + 1, c :: rest, out =>
    let input := c :: rest
    if ['.', '.', '/'] <+: input then removeDotSegmentsAux n (input.drop 3) out
    else if ['.', '/'] <+: input then removeDotSegmentsAux n (input.drop 2) out
    else if ['/', '.', '/'] <+: input then removeDotSegmentsAux n (input.drop 2) out
    else if input = ['/', '.'] then removeDotSegmentsAux n ['/'] out
    else if ['/', '.', '.', '/'] <+: input then
      removeDotSegmentsAux n (input.drop 3) (removeLastSegment out)
    else if input = ['/', '.', '.'] then removeDotSegmentsAux n ['/'] (removeLastSegment out)
    else if input = ['.'] ∨ input = ['.', '.'] then out
    else
      removeDotSegmentsAux n (rest.dropWhile (fun d => decide (d ≠ '/')))
        (out ++ c :: rest.takeWhile (fun d => decide (d ≠ '/')))

/-- Modelled from the spec: `remove_dot_segments` of RFC 3986, 5.2.4, the normalization of
section 4.1; the code of `net/url` is outside the repository. -/
def removeDotSegments (path : String) : String :=
  String.mk (removeDotSegmentsAux (path.length + 1) path.toList [])

/-- Modelled from the spec: `merge` of RFC 3986, 5.2.3, the path merge of section 4.1; the
code of `net/url` is outside the repository. -/
def mergePaths (B : RefURL) (refPath : String) : String :=
  if B.authority.isSome ∧ B.path = "" then "/" ++ refPath
  else String.mk ((B.path.toList.reverse.dropWhile (fun c => decide (c ≠ '/'))).reverse) ++ refPath

/-- Modelled from the spec: `resolve` of the URL Resolver (section 4.1) on parsed URLs, the
transformation of a reference `R` against a base `B` of RFC 3986, 5.2.2; the code
(`ResolveReference` of `net/url`) is outside the repository. -/
def resolveReference (B R : RefURL) : RefURL :=
  match R.scheme with
  | some s =>
    { scheme := some s, authority := R.authority, path := removeDotSegments R.path,
      query := R.query, fragment := R.fragment }
  | none =>
    match R.authority with
    | some a =>
      { scheme := B.scheme, authority := some a, path := removeDotSegments R.path,
        query := R.query, fragment := R.fragment }
    | none =>
      if R.path = "" then
        { scheme := B.scheme, authority := B.authority, path := B.path,
          query := (match R.query with | some q => some q | none => B.query),
          fragment := R.fragment }
      else if R.path.toList.head? = some '/' then
        { scheme := B.scheme, authority := B.authority, path := removeDotSegments R.path,
          query := R.query, fragment := R.fragment }
      else
        { scheme := B.scheme, authority := B.authority,
          path := removeDotSegments (mergePaths B R.path),
          query := R.query, fragment := R.fragment }

/-- Modelled from the spec: the string of a URL, the recomposition of RFC 3986, 5.3; the
code (`String` of `net/url`) is outside the repository. -/
def recompose (T : RefURL) : String :=
  (match T.scheme with | some s => s ++ ":" | none => "") ++
  (match T.authority with | some a => "//" ++ a | none => "") ++
  T.path ++
  (match T.query with | some q => "?" ++ q | none => "") ++
  (match T.fragment with | some f => "#" ++ f | none => "")

/-- Modelled from the spec: the hostname of a URL (section 6, persisted file layout), the
authority without user information and port; the code (`Hostname` of `net/url`) is outside
the repository. -/
def hostnameOf (T : RefURL) : String :=
  match T.authority with
  | none => ""
  | some a =>
    let hostport := (a.toList.reverse.takeWhile (fun c => decide (c ≠ '@'))).reverse
    let port := hostport.reverse.takeWhile (fun c => decide (c ≠ ':'))
    if hostport.contains ':' ∧ port.all Char.isDigit then
      String.mk (hostport.reverse.drop (port.length + 1)).reverse
    else String.mk hostport

/-- Modelled from the spec: the package of URL functions of the URL Resolver (section 4.1)
over a given parser; the code (`net/url`) is outside the repository. -/
def specURLPackage (Parse : String → Except GoError RefURL) : URLPackage RefURL where
  Parse := Parse
  ResolveReference := resolveReference
  Render := recompose
  Hostname := hostnameOf
  Path := fun T => T.path

/-- An absolute URL: one that has a scheme.  A base URL of reference resolution is of
this kind (RFC 3986, 5.2.1). -/
def RefURL.isAbsolute (T : RefURL) : Bool := T.scheme.isSome

/-! ## Example inputs -/

/-- A table of `url.Parse` on the strings the examples use; a string outside the table is
answered with an error, as `url.Parse` answers the entry `%zz`. -/
def exampleParse (s : String) : Except GoError RefURL :=
  if s = "https://example.com/app/index.html" then
    .ok { scheme := some "https", authority := some "example.com", path := "/app/index.html",
          query := none, fragment := none }
  else if s = "https://example.com/" then
    .ok { scheme := some "https", authority := some "example.com", path := "/",
          query := none, fragment := none }
  else if s = "https://example.com/app/js/app.js" then
    .ok { scheme := some "https", authority := some "example.com", path := "/app/js/app.js",
          query := none, fragment := none }
  else if s = "https://example.com/app/js/vendor.js" then
    .ok { scheme := some "https", authority := some "example.com", path := "/app/js/vendor.js",
          query := none, fragment := none }
  else if s = "https://cdn.example.net/lib/jquery.js" then
    .ok { scheme := some "https", authority := some "cdn.example.net", path := "/lib/jquery.js",
          query := none, fragment := none }
  else if s = "//cdn.example.net/lib/jquery.js" then
    .ok { scheme := none, authority := some "cdn.example.net", path := "/lib/jquery.js",
          query := none, fragment := none }
  else if s = "js/app.js" then
    .ok { scheme := none, authority := none, path := "js/app.js", query := none, fragment := none }
  else if s = "../static/lib.js" then
    .ok { scheme := none, authority := none, path := "../static/lib.js", query := none,
          fragment := none }
  else if s = "/page" then
    .ok { scheme := none, authority := none, path := "/page", query := none, fragment := none }
  else if s = "%zz" then .error "parse \"%zz\": invalid URL escape \"%zz\""
  else .error ("parse \"" ++ s ++ "\": not in the table")

/-- The URL functions of the examples. -/
def exampleURL : URLPackage RefURL := specURLPackage exampleParse

/-- A start tag `<script>` with the given `src` values as attributes. -/
def scriptTag (srcs : List String) : Token :=
  { Kind := .StartTagToken, Data := "script",
    Attr := srcs.map (fun v => { Namespace := "", Key := "src", Val := v }) }

/-- The tokens of the example page: a `div`, a script with `src` `js/app.js`, an inline
script with its text and end tag, and twice a script with `src`
`https://cdn.example.net/lib/jquery.js`. -/
def examplePage : List Token :=
  [ { Kind := .StartTagToken, Data := "div", Attr := [{ Namespace := "", Key := "src", Val := "%zz" }] },
    scriptTag ["js/app.js"],
    { Kind := .EndTagToken, Data := "script", Attr := [] },
    { Kind := .StartTagToken, Data := "script",
      Attr := [{ Namespace := "", Key := "type", Val := "text/javascript" }] },
    { Kind := .TextToken, Data := "var x = 1;", Attr := [] },
    { Kind := .EndTagToken, Data := "script", Attr := [] },
    scriptTag ["https://cdn.example.net/lib/jquery.js"],
    { Kind := .SelfClosingTagToken, Data := "script",
      Attr := [{ Namespace := "", Key := "src", Val := "https://cdn.example.net/lib/jquery.js" }] } ]

/-- A network that accepts every URL and answers every request with the given status and
body. -/
def answerNet (status : Int) (body : String) : Network where
  NewRequestError := fun _ _ => none
  Do := fun _ _ => .ok { StatusCode := status, Body := (body, none) }

/-- A network on which every exchange fails with the given error. -/
def downNet (err : GoError) : Network where
  NewRequestError := fun _ _ => none
  Do := fun _ _ => .error err

/-- A file system on which every call succeeds. -/
def healthyFS : FileSystem where
  MkdirAll := fun _ _ => none
  WriteFile := fun _ _ _ => none

/-- A file system on which directories can be made and no file can be written. -/
def readOnlyFS : FileSystem where
  MkdirAll := fun _ _ => none
  WriteFile := fun name _ _ => some ("open " ++ name ++ ": permission denied")

/-- A file system in which `example.com` is a directory: it can be made, and writing to
it as a file fails. -/
def hostDirFS : FileSystem where
  MkdirAll := fun _ _ => none
  WriteFile := fun name _ _ =>
    if name = "example.com" then some "open example.com: is a directory" else none

/-! ## Vocabulary of the statements -/

/-- The tokens of a stream that the scan reaches: those before the first token of kind
`ErrorToken`. -/
def documentTokens (toks : List Token) : List Token :=
  toks.takeWhile (fun t => decide (t.Kind ≠ .ErrorToken))

/-- A start-tag or self-closing-tag token whose tag name is `script`. -/
def isScriptTag (t : Token) : Bool :=
  decide ((t.Kind = .StartTagToken ∨ t.Kind = .SelfClosingTagToken) ∧ t.Data = "script")

/-- The values of the attributes named `src`, in order. -/
def srcVals (attrs : List Attribute) : List String :=
  (attrs.filter (fun a => decide (a.Key = "src"))).map (fun a => a.Val)

/-- The `src` values of the script tags of a token list, in document order, every
occurrence counted. -/
def scriptSrcs (toks : List Token) : List String :=
  (toks.filter isScriptTag).flatMap (fun t => srcVals t.Attr)

/-- The resolved URL of every reference of a list, in order, or the error of the first
reference that fails to parse. -/
def resolveAll {U : Type} (url : URLPackage U) (base : U) :
    List String → Except GoError (List String)
  | [] => .ok []
  | v :: vs =>
    match url.Parse v with
    | .error err => .error err
    | .ok u =>
      match resolveAll url base vs with
      | .error err => .error err
      | .ok outs => .ok (url.Render (url.ResolveReference base u) :: outs)

/-- The name of the first signature, in declaration order, whose pattern is found in the
content, if there is one. -/
def firstMatchName (MatchString : RegexpMatchString) (sigs : List JavaScriptSignature)
    (content : String) : Option String :=
  (sigs.find? (fun s => (MatchString s.Regex content).1)).map (fun s => s.Name)

/-- The line a script URL is expected to contribute to standard output: the first-match
name of its content when its fetch succeeded, nothing otherwise. -/
def expectedLine (MatchString : RegexpMatchString) (config : Configuration)
    (userAgent : String) (unit : String × UnitWorld) : Option String :=
  if (fetchJavascript unit.2.net unit.1 userAgent).err = none then
    firstMatchName MatchString config.Signatures (fetchJavascript unit.2.net unit.1 userAgent).body
  else none

/-- The save a script URL is expected to contribute: its URL and fetched content when its
fetch succeeded and files are kept, nothing otherwise. -/
def expectedSave (keepJS : Bool) (userAgent : String) (unit : String × UnitWorld) :
    Option (String × String) :=
  if (fetchJavascript unit.2.net unit.1 userAgent).err = none ∧ keepJS = true then
    some (unit.1, (fetchJavascript unit.2.net unit.1 userAgent).body)
  else none

/-- Whether the fetch of a script URL succeeds. -/
def fetchSucceeds (userAgent : String) (unit : String × UnitWorld) : Bool :=
  decide ((fetchJavascript unit.2.net unit.1 userAgent).err = none)

/-- The two signatures of the examples: A with pattern `foo`, B with pattern `bar`. -/
def exampleConfig : Configuration :=
  { Signatures := [{ Name := "A", Regex := "foo" }, { Name := "B", Regex := "bar" }] }

/-- A configuration whose first pattern, `(`, does not compile. -/
def brokenConfig : Configuration :=
  { Signatures := [{ Name := "Broken", Regex := "(" }, { Name := "B", Regex := "bar" }] }

/-- Three script URLs: the first answers 200 with `foo` in its content, the second cannot
be reached, the third answers 200 with `bar` in its content. -/
def exampleUnits : List (String × UnitWorld) :=
  [ ("https://example.com/app/js/app.js",
      { net := answerNet 200 "var foo = 1;", fs := healthyFS }),
    ("https://example.com/app/js/vendor.js",
      { net := downNet "dial tcp: lookup example.com: no such host", fs := healthyFS }),
    ("https://cdn.example.net/lib/jquery.js",
      { net := answerNet 200 "var bar = 2;", fs := readOnlyFS }) ]

/-- A run in which the configuration file decodes to `brokenConfig`, the page is the
example page and every script answers 200 with `bar` in its content. -/
def brokenConfigWorld : World where
  DecodeFile := fun _ => (brokenConfig, none)
  MatchString := literalMatchString
  Tokenize := fun _ => examplePage
  pageNet := answerNet 200 "<html>"
  unitWorld := fun _ => { net := answerNet 200 "var bar = 2;", fs := healthyFS }

/-- A string that names one path element: not empty, not `.` or `..`, without `/`. -/
def plainName (s : String) : Prop :=
  s ≠ "" ∧ s ≠ "." ∧ s ≠ ".." ∧ '/' ∉ s.toList

/-! ## Theorems about the matching loop -/

/-- The loop prints at most the first matching signature: a general description of
`matchLoop` by the position of the first match. -/
theorem matchLoop_printed_cases (MatchString : RegexpMatchString) (content : String)
    (sigs : List JavaScriptSignature) :
    (∃ (i : Nat) (h : i < sigs.length),
        (MatchString (sigs.get ⟨i, h⟩).Regex content).1 = true ∧
        (∀ (j : Nat) (hj : j < sigs.length), j < i →
          (MatchString (sigs.get ⟨j, hj⟩).Regex content).1 = false) ∧
        (matchLoop MatchString content sigs).printed = [(sigs.get ⟨i, h⟩).Name]) ∨
    ((∀ s ∈ sigs, (MatchString s.Regex content).1 = false) ∧
        (matchLoop MatchString content sigs).printed = []) := by
  induction sigs with
  | nil => right; simp [matchLoop]
  | cons s rest ih =>
    by_cases hm : (MatchString s.Regex content).1 = true
    · left
      refine ⟨0, by simp, by simpa using hm, ?_, by simp [matchLoop, hm]⟩
      intro j _ hj; omega
    · have hm' : (MatchString s.Regex content).1 = false := by simpa using hm
      rcases ih with ⟨i, h, h1, h2, h3⟩ | ⟨h1, h2⟩
      · left
        refine ⟨i + 1, by simpa using h, by simpa using h1, ?_, by simpa [matchLoop, hm'] using h3⟩
        intro j hj hji
        cases j with
        | zero => simpa using hm'
        | succ k =>
          have hk : k < rest.length := by simpa using hj
          simpa using h2 k hk (by omega)
      · right
        refine ⟨?_, by simpa [matchLoop, hm'] using h2⟩
        intro t ht
        rcases List.mem_cons.mp ht with rfl | ht
        · exact hm'
        · exact h1 t ht

/-- C1. Signature matching is first-match-wins in declaration order: for every content and
every ordered signature list, either some signature matches, and then the loop prints
exactly the name of the matching signature of smallest index, or none matches and the loop
prints nothing.  With the signatures A/foo and B/bar: the content "xx bar foo yy" gives A,
a content with only "bar" gives B, a content with neither gives no output. -/
theorem C1_first_match_wins :
    (∀ (MatchString : RegexpMatchString) (content : String) (sigs : List JavaScriptSignature),
      (∃ (i : Nat) (h : i < sigs.length),
          (MatchString (sigs.get ⟨i, h⟩).Regex content).1 = true ∧
          (∀ (j : Nat) (hj : j < sigs.length), j < i →
            (MatchString (sigs.get ⟨j, hj⟩).Regex content).1 = false) ∧
          (matchLoop MatchString content sigs).printed = [(sigs.get ⟨i, h⟩).Name]) ∨
      ((∀ s ∈ sigs, (MatchString s.Regex content).1 = false) ∧
          (matchLoop MatchString content sigs).printed = [])) ∧
    (matchLoop literalMatchString "xx bar foo yy"
        [{ Name := "A", Regex := "foo" }, { Name := "B", Regex := "bar" }]).printed = ["A"] ∧
    (matchLoop literalMatchString "only bar here"
        [{ Name := "A", Regex := "foo" }, { Name := "B", Regex := "bar" }]).printed = ["B"] ∧
    (matchLoop literalMatchString "nothing known"
        [{ Name := "A", Regex := "foo" }, { Name := "B", Regex := "bar" }]).printed = [] := by
  refine ⟨matchLoop_printed_cases, ?_, ?_, ?_⟩ <;> decide

/-! ## Theorems about the fetch functions -/

/-- Both fetch functions on a response whose status is not 200: the error names the
status, no body is returned, and the one request built from the URL was issued. -/
theorem fetch_status_not_ok (net : Network) (url userAgent : String) (response : Response)
    (hreq : net.NewRequestError "GET" url = none)
    (hdo : net.Do 10 (Request.HeaderSet { Method := "GET", URL := url, Header := [] }
      "User-Agent" userAgent) = .ok response)
    (hstatus : response.StatusCode ≠ 200) :
    fetchHTML net url userAgent =
      { body := "",
        err := some ("HTTP request failed with status code: " ++ toString response.StatusCode),
        issued := [Request.HeaderSet { Method := "GET", URL := url, Header := [] }
          "User-Agent" userAgent] } ∧
    fetchJavascript net url userAgent =
      { body := "",
        err := some ("HTTP request failed with status code: " ++ toString response.StatusCode),
        issued := [Request.HeaderSet { Method := "GET", URL := url, Header := [] }
          "User-Agent" userAgent] } := by
  constructor <;>
    simp [fetchHTML, fetchJavascript, Network.NewRequest, hreq, hdo, StatusOK, hstatus]

/-- A fetch function that returns no error has met a response of status 200 and returns
its body. -/
theorem fetchHTML_ok_inv (net : Network) (url userAgent : String)
    (h : (fetchHTML net url userAgent).err = none) :
    ∃ response, net.Do 10 (Request.HeaderSet { Method := "GET", URL := url, Header := [] }
        "User-Agent" userAgent) = .ok response ∧ response.StatusCode = 200 ∧
      response.Body = ((fetchHTML net url userAgent).body, none) := by
  unfold fetchHTML Network.NewRequest at h ⊢
  cases hreq : net.NewRequestError "GET" url with
  | some e => simp [hreq] at h
  | none =>
    simp only [hreq] at h ⊢
    cases hdo : net.Do 10 (Request.HeaderSet { Method := "GET", URL := url, Header := [] }
        "User-Agent" userAgent) with
    | error e => simp [hdo] at h
    | ok response =>
      simp only [hdo] at h ⊢
      by_cases hs : response.StatusCode = StatusOK
      · rcases hb : response.Body with ⟨b, _ | e⟩
        · refine ⟨response, rfl, hs, ?_⟩
          simp [hs, hb]
        · simp [hs, hb] at h
      · simp [hs] at h

/-- The same for `fetchJavascript`. -/
theorem fetchJavascript_ok_inv (net : Network) (url userAgent : String)
    (h : (fetchJavascript net url userAgent).err = none) :
    ∃ response, net.Do 10 (Request.HeaderSet { Method := "GET", URL := url, Header := [] }
        "User-Agent" userAgent) = .ok response ∧ response.StatusCode = 200 ∧
      response.Body = ((fetchJavascript net url userAgent).body, none) := by
  unfold fetchJavascript Network.NewRequest at h ⊢
  cases hreq : net.NewRequestError "GET" url with
  | some e => simp [hreq] at h
  | none =>
    simp only [hreq] at h ⊢
    cases hdo : net.Do 10 (Request.HeaderSet { Method := "GET", URL := url, Header := [] }
        "User-Agent" userAgent) with
    | error e => simp [hdo] at h
    | ok response =>
      simp only [hdo] at h ⊢
      by_cases hs : response.StatusCode = StatusOK
      · rcases hb : response.Body with ⟨b, _ | e⟩
        · refine ⟨response, rfl, hs, ?_⟩
          simp [hs, hb]
        · simp [hs, hb] at h
      · simp [hs] at h

/-- C6. For every HTTP response whose status code is outside 200..299, `fetchHTML` and
`fetchJavascript` both return a failure with an empty body, the failure carries that status
code, and exactly one request was handed to the client: there is no retry. -/
theorem C6_status_outside_2xx_fails (net : Network) (url userAgent : String)
    (response : Response)
    (hreq : net.NewRequestError "GET" url = none)
    (hdo : net.Do 10 (Request.HeaderSet { Method := "GET", URL := url, Header := [] }
      "User-Agent" userAgent) = .ok response)
    (hstatus : response.StatusCode < 200 ∨ 299 < response.StatusCode) :
    fetchHTML net url userAgent =
      { body := "",
        err := some ("HTTP request failed with status code: " ++ toString response.StatusCode),
        issued := [{ Method := "GET", URL := url, Header := [("User-Agent", userAgent)] }] } ∧
    fetchJavascript net url userAgent =
      { body := "",
        err := some ("HTTP request failed with status code: " ++ toString response.StatusCode),
        issued := [{ Method := "GET", URL := url, Header := [("User-Agent", userAgent)] }] } := by
  have hne : response.StatusCode ≠ 200 := by omega
  simpa [Request.HeaderSet] using fetch_status_not_ok net url userAgent response hreq hdo hne

/-- C6 at a page that answers 404: both functions fail with the status in the error, return
no body and have issued one request. -/
theorem C6_status_outside_2xx_fails_witness :
    ((404 : Int) < 200 ∨ 299 < (404 : Int)) ∧
    fetchHTML (answerNet 404 "not found") "https://example.com/missing.js" "Mozilla/5.0" =
      { body := "", err := some "HTTP request failed with status code: 404",
        issued := [{ Method := "GET", URL := "https://example.com/missing.js",
                     Header := [("User-Agent", "Mozilla/5.0")] }] } ∧
    fetchJavascript (answerNet 404 "not found") "https://example.com/missing.js" "Mozilla/5.0" =
      { body := "", err := some "HTTP request failed with status code: 404",
        issued := [{ Method := "GET", URL := "https://example.com/missing.js",
                     Header := [("User-Agent", "Mozilla/5.0")] }] } :=
  ⟨by decide,
    C6_status_outside_2xx_fails (answerNet 404 "not found") "https://example.com/missing.js"
      "Mozilla/5.0" { StatusCode := 404, Body := ("not found", none) } rfl rfl (by decide)⟩

/-- C10. `fetchHTML` and `fetchJavascript` return the body only when the status code of the
final response is exactly 200: for every other status code, the other 2xx codes such as
201, 204 and 206 included, they return an error and an empty body; and when either returns
without error the status was 200. -/
theorem C10_body_only_for_status_200 (net : Network) (url userAgent : String)
    (response : Response)
    (hreq : net.NewRequestError "GET" url = none)
    (hdo : net.Do 10 (Request.HeaderSet { Method := "GET", URL := url, Header := [] }
      "User-Agent" userAgent) = .ok response) :
    (response.StatusCode ≠ 200 →
      ((fetchHTML net url userAgent).body = "" ∧
        (fetchHTML net url userAgent).err =
          some ("HTTP request failed with status code: " ++ toString response.StatusCode)) ∧
      ((fetchJavascript net url userAgent).body = "" ∧
        (fetchJavascript net url userAgent).err =
          some ("HTTP request failed with status code: " ++ toString response.StatusCode))) ∧
    ((fetchHTML net url userAgent).err = none → response.StatusCode = 200) ∧
    ((fetchJavascript net url userAgent).err = none → response.StatusCode = 200) := by
  refine ⟨?_, ?_, ?_⟩
  · intro hne
    have h := fetch_status_not_ok net url userAgent response hreq hdo hne
    rw [h.1, h.2]
    simp
  · intro h
    obtain ⟨r, hr, hs, _⟩ := fetchHTML_ok_inv net url userAgent h
    rw [hdo] at hr
    cases hr
    exact hs
  · intro h
    obtain ⟨r, hr, hs, _⟩ := fetchJavascript_ok_inv net url userAgent h
    rw [hdo] at hr
    cases hr
    exact hs

/-- C10 at the statuses 201, 204 and 206 with a body: no body is returned, the error names
the status; and at 200 the body is returned. -/
theorem C10_body_only_for_status_200_witness :
    (fetchHTML (answerNet 201 "created") "https://example.com/a.js" "Mozilla/5.0").body = "" ∧
    (fetchJavascript (answerNet 204 "") "https://example.com/a.js" "Mozilla/5.0").err =
      some "HTTP request failed with status code: 204" ∧
    (fetchJavascript (answerNet 206 "var a") "https://example.com/a.js" "Mozilla/5.0").body = "" ∧
    (fetchJavascript (answerNet 206 "var a") "https://example.com/a.js" "Mozilla/5.0").err =
      some "HTTP request failed with status code: 206" ∧
    (fetchJavascript (answerNet 200 "var a") "https://example.com/a.js" "Mozilla/5.0").body =
      "var a" :=
  ⟨((C10_body_only_for_status_200 (answerNet 201 "created") "https://example.com/a.js"
      "Mozilla/5.0" { StatusCode := 201, Body := ("created", none) } rfl rfl).1 (by decide)).1.1,
   ((C10_body_only_for_status_200 (answerNet 204 "") "https://example.com/a.js"
      "Mozilla/5.0" { StatusCode := 204, Body := ("", none) } rfl rfl).1 (by decide)).2.2,
   ((C10_body_only_for_status_200 (answerNet 206 "var a") "https://example.com/a.js"
      "Mozilla/5.0" { StatusCode := 206, Body := ("var a", none) } rfl rfl).1 (by decide)).2.1,
   ((C10_body_only_for_status_200 (answerNet 206 "var a") "https://example.com/a.js"
      "Mozilla/5.0" { StatusCode := 206, Body := ("var a", none) } rfl rfl).1 (by decide)).2.2,
   by decide⟩

/-! ## Theorems about the script extraction -/

theorem resolveAll_append {U : Type} (url : URLPackage U) (base : U) (xs ys : List String) :
    resolveAll url base (xs ++ ys) =
      match resolveAll url base xs with
      | .error err => .error err
      | .ok outs =>
        match resolveAll url base ys with
        | .error err => .error err
        | .ok more => .ok (outs ++ more) := by
  induction xs with
  | nil =>
    cases h : resolveAll url base ys <;> simp [resolveAll, h]
  | cons v vs ih =>
    simp only [List.cons_append, resolveAll]
    cases hp : url.Parse v with
    | error e => simp
    | ok u =>
      cases h1 : resolveAll url base vs with
      | error e => simp [ih, h1]
      | ok outs =>
        cases h2 : resolveAll url base ys <;> simp [ih, h1, h2]

/-- The attribute loop appends the resolved `src` values, or returns the first parse
error. -/
theorem scanAttrs_eq {U : Type} (url : URLPackage U) (base : U) (attrs : List Attribute)
    (jsURLs : List String) :
    scanAttrs url base attrs jsURLs =
      match resolveAll url base (srcVals attrs) with
      | .error err => .error err
      | .ok outs => .ok (jsURLs ++ outs) := by
  induction attrs generalizing jsURLs with
  | nil => simp [scanAttrs, srcVals, resolveAll]
  | cons a rest ih =>
    by_cases hk : a.Key = "src"
    · simp only [scanAttrs, hk, if_true, srcVals, List.filter_cons, decide_True, List.map_cons,
        resolveAll]
      cases hp : url.Parse a.Val with
      | error e => simp
      | ok u =>
        simp only [ih]
        have : srcVals rest = List.map (fun a => a.Val)
            (List.filter (fun a => decide (a.Key = "src")) rest) := rfl
        rw [← this]
        cases h : resolveAll url base (srcVals rest) <;> simp
    · have hs : srcVals (a :: rest) = srcVals rest := by simp [srcVals, hk]
      simp only [scanAttrs, hk, if_false, hs]
      exact ih jsURLs

/-- The token loop returns the URLs collected so far followed by the resolved `src` values
of the script tags it reaches, or nothing and the first parse error. -/
theorem scanTokens_eq {U : Type} (url : URLPackage U) (base : U) (toks : List Token)
    (jsURLs : List String) :
    scanTokens url base toks jsURLs =
      match resolveAll url base (scriptSrcs (documentTokens toks)) with
      | .error err => ([], some err)
      | .ok outs => (jsURLs ++ outs, none) := by
  induction toks generalizing jsURLs with
  | nil => simp [scanTokens, documentTokens, scriptSrcs, resolveAll]
  | cons t rest ih =>
    by_cases hE : t.Kind = .ErrorToken
    · simp [scanTokens, hE, documentTokens, scriptSrcs, resolveAll]
    · have hdoc : documentTokens (t :: rest) = t :: documentTokens rest := by
        simp [documentTokens, hE]
      by_cases hS : isScriptTag t = true
      · have hsrc : scriptSrcs (documentTokens (t :: rest)) =
            srcVals t.Attr ++ scriptSrcs (documentTokens rest) := by
          simp [hdoc, scriptSrcs, hS]
        have hstep : scanTokens url base (t :: rest) jsURLs =
            match scanAttrs url base t.Attr jsURLs with
            | .error err => ([], some err)
            | .ok jsURLs => scanTokens url base rest jsURLs := by
          simp only [isScriptTag, decide_eq_true_eq] at hS
          rcases hS with ⟨hk | hk, hd⟩ <;> simp [scanTokens, hk, hd]
        rw [hstep, hsrc, resolveAll_append, scanAttrs_eq]
        cases h1 : resolveAll url base (srcVals t.Attr) with
        | error e => simp
        | ok outs =>
          simp only [ih]
          cases h2 : resolveAll url base (scriptSrcs (documentTokens rest)) <;> simp
      · have hsrc : scriptSrcs (documentTokens (t :: rest)) =
            scriptSrcs (documentTokens rest) := by
          simp [hdoc, scriptSrcs, hS]
        have hstep : scanTokens url base (t :: rest) jsURLs =
            scanTokens url base rest jsURLs := by
          simp only [isScriptTag, decide_eq_true_eq, not_and, not_or] at hS
          cases hk : t.Kind <;> simp_all [scanTokens]
        rw [hstep, hsrc]
        exact ih jsURLs

/-- When every reference parses, `resolveAll` succeeds with one URL for each reference,
in order. -/
theorem resolveAll_ok {U : Type} (url : URLPackage U) (base : U) (vs : List String)
    (h : ∀ v ∈ vs, ∃ u, url.Parse v = .ok u) :
    ∃ outs, resolveAll url base vs = .ok outs ∧
      List.Forall₂ (fun v out => ∃ u, url.Parse v = .ok u ∧
        out = url.Render (url.ResolveReference base u)) vs outs := by
  induction vs with
  | nil => exact ⟨[], rfl, List.Forall₂.nil⟩
  | cons v rest ih =>
    obtain ⟨u, hu⟩ := h v (List.mem_cons_self v rest)
    obtain ⟨outs, ho, hf⟩ := ih (fun w hw => h w (List.mem_cons_of_mem v hw))
    refine ⟨url.Render (url.ResolveReference base u) :: outs, ?_, ?_⟩
    · simp [resolveAll, hu, ho]
    · exact List.Forall₂.cons ⟨u, hu, rfl⟩ hf

/-- The function `resolveAll` fails exactly when some reference fails to parse. -/
theorem resolveAll_error_iff {U : Type} (url : URLPackage U) (base : U) (vs : List String) :
    (∃ e, resolveAll url base vs = .error e) ↔ ∃ v ∈ vs, ∃ e, url.Parse v = .error e := by
  induction vs with
  | nil => simp [resolveAll]
  | cons v rest ih =>
    cases hp : url.Parse v with
    | error e => simp [resolveAll, hp]
    | ok u =>
      cases hr : resolveAll url base rest with
      | error e =>
        have h1 : ∃ w ∈ rest, ∃ e, url.Parse w = .error e := ih.mp ⟨e, hr⟩
        simp only [resolveAll, hp, hr, List.mem_cons]
        constructor
        · intro _
          obtain ⟨w, hw, hw2⟩ := h1
          exact ⟨w, Or.inr hw, hw2⟩
        · intro _
          exact ⟨e, rfl⟩
      | ok outs =>
        have h1 : ¬ ∃ w ∈ rest, ∃ e, url.Parse w = .error e := by
          intro hc
          obtain ⟨e, he⟩ := ih.mpr hc
          rw [hr] at he
          cases he
        simp only [resolveAll, hp, hr, List.mem_cons]
        constructor
        · rintro ⟨e, he⟩
          cases he
        · rintro ⟨w, hw | hw, e, he⟩
          · subst hw
            rw [hp] at he
            cases he
          · exact absurd ⟨w, hw, e, he⟩ h1

/-- The `src` values of the script tags, by membership. -/
theorem mem_scriptSrcs (toks : List Token) (v : String) :
    v ∈ scriptSrcs toks ↔
      ∃ t ∈ toks, isScriptTag t = true ∧ ∃ a ∈ t.Attr, a.Key = "src" ∧ a.Val = v := by
  simp only [scriptSrcs, srcVals, List.mem_flatMap, List.mem_filter, List.mem_map,
    decide_eq_true_eq]
  constructor
  · rintro ⟨t, ⟨ht, hs⟩, a, ⟨ha, hk⟩, hv⟩
    exact ⟨t, ht, hs, a, ha, hk, hv⟩
  · rintro ⟨t, ht, hs, a, ha, hk, hv⟩
    exact ⟨t, ⟨ht, hs⟩, a, ⟨ha, hk⟩, hv⟩

/-- A token of kind `ErrorToken` ends the document. -/
theorem documentTokens_append_stop (before after : List Token) (stop : Token)
    (h : stop.Kind = .ErrorToken) :
    documentTokens (before ++ stop :: after) = documentTokens before := by
  induction before with
  | nil => simp [documentTokens, h]
  | cons t rest ih =>
    simp only [documentTokens] at ih ⊢
    by_cases ht : t.Kind = .ErrorToken
    · simp [ht]
    · simpa [ht] using ih

/-- C2. For every base URL that parses and every token stream in which every `src` value of
a `script` start-tag or self-closing-tag token parses, `extractJSScriptURLs` returns no
error and exactly one resolved URL for every such `src` attribute, in document order, with
duplicates kept; script tags without `src` and other tokens contribute nothing, and a
document without script tags gives the empty list and no error. -/
theorem C2_one_url_per_script_src {U : Type} (url : URLPackage U) (Tokenize : HtmlTokenizer)
    (htmlString baseURL : String) (base : U)
    (hbase : url.Parse baseURL = .ok base)
    (hsrc : ∀ v ∈ scriptSrcs (documentTokens (Tokenize htmlString)), ∃ u, url.Parse v = .ok u) :
    (extractJSScriptURLs url Tokenize htmlString baseURL).2 = none ∧
    List.Forall₂ (fun v out => ∃ u, url.Parse v = .ok u ∧
        out = url.Render (url.ResolveReference base u))
      (scriptSrcs (documentTokens (Tokenize htmlString)))
      (extractJSScriptURLs url Tokenize htmlString baseURL).1 ∧
    ((∀ t ∈ documentTokens (Tokenize htmlString), isScriptTag t = false) →
      extractJSScriptURLs url Tokenize htmlString baseURL = ([], none)) := by
  obtain ⟨outs, ho, hf⟩ := resolveAll_ok url base _ hsrc
  have hres : extractJSScriptURLs url Tokenize htmlString baseURL = (outs, none) := by
    simp [extractJSScriptURLs, hbase, scanTokens_eq, ho]
  refine ⟨by rw [hres], by rw [hres]; exact hf, ?_⟩
  intro hnone
  have hempty : scriptSrcs (documentTokens (Tokenize htmlString)) = [] := by
    apply List.eq_nil_iff_forall_not_mem.mpr
    intro v hv
    obtain ⟨t, ht, hs, _⟩ := (mem_scriptSrcs _ v).mp hv
    rw [hnone t ht] at hs
    cases hs
  rw [hempty] at hf
  cases hf
  exact hres

/-- C2 on the example page with base `https://example.com/app/index.html`: three `src`
attributes, two of them equal, give three URLs in document order; the inline script and the
`div` give none. -/
theorem C2_one_url_per_script_src_witness :
    exampleURL.Parse "https://example.com/app/index.html" =
      .ok { scheme := some "https", authority := some "example.com",
            path := "/app/index.html", query := none, fragment := none } ∧
    scriptSrcs (documentTokens examplePage) =
      ["js/app.js", "https://cdn.example.net/lib/jquery.js",
       "https://cdn.example.net/lib/jquery.js"] ∧
    extractJSScriptURLs exampleURL (fun _ => examplePage) "<html>"
        "https://example.com/app/index.html" =
      (["https://example.com/app/js/app.js", "https://cdn.example.net/lib/jquery.js",
        "https://cdn.example.net/lib/jquery.js"], none) ∧
    (extractJSScriptURLs exampleURL (fun _ => examplePage) "<html>"
        "https://example.com/app/index.html").2 = none := by
  have hsrcs : scriptSrcs (documentTokens examplePage) =
      ["js/app.js", "https://cdn.example.net/lib/jquery.js",
       "https://cdn.example.net/lib/jquery.js"] := by decide
  refine ⟨rfl, hsrcs, by decide, ?_⟩
  refine (C2_one_url_per_script_src exampleURL (fun _ => examplePage) "<html>"
    "https://example.com/app/index.html" _ rfl ?_).1
  intro v hv
  rw [hsrcs] at hv
  simp only [List.mem_cons, List.mem_singleton, List.not_mem_nil, or_false] at hv
  rcases hv with rfl | rfl | rfl
  · exact ⟨_, rfl⟩
  · exact ⟨_, rfl⟩
  · exact ⟨_, rfl⟩

/-- A successful `resolveAll` returns one URL for each reference, in order, each the
resolution of its reference. -/
theorem resolveAll_forall₂ {U : Type} (url : URLPackage U) (base : U) (vs outs : List String)
    (h : resolveAll url base vs = .ok outs) :
    List.Forall₂ (fun v out => ∃ u, url.Parse v = .ok u ∧
      out = url.Render (url.ResolveReference base u)) vs outs := by
  induction vs generalizing outs with
  | nil =>
    simp only [resolveAll] at h
    cases h
    exact List.Forall₂.nil
  | cons v rest ih =>
    cases hp : url.Parse v with
    | error e => simp [resolveAll, hp] at h
    | ok u =>
      cases hr : resolveAll url base rest with
      | error e => simp [resolveAll, hp, hr] at h
      | ok more =>
        simp only [resolveAll, hp, hr] at h
        cases h
        exact List.Forall₂.cons ⟨u, hp, rfl⟩ (ih more hr)

/-- C3. The function `extractJSScriptURLs` returns an error if and only if the base URL
fails to parse or some `src` value of a `script` start-tag or self-closing-tag token of the
scanned document fails to parse; with an error it returns no URLs; and a token of kind
`ErrorToken` (tokenizer error or end of input) produces no error of its own: the result is
the one of the tokens before it.  Whenever no error is returned, the URLs returned are the
URLs collected so far: one resolved URL for every `src` value of the script tags before the
first `ErrorToken`, in order; so a stream that ends in an `ErrorToken`, whatever follows
it, gives no error and the resolved `src` values of the tokens before it, as soon as these
parse. -/
theorem C3_error_iff_unparsable_reference {U : Type} (url : URLPackage U)
    (Tokenize : HtmlTokenizer) (htmlString baseURL : String) :
    ((extractJSScriptURLs url Tokenize htmlString baseURL).2 ≠ none ↔
      ((∃ e, url.Parse baseURL = .error e) ∨
        ∃ t ∈ documentTokens (Tokenize htmlString), isScriptTag t = true ∧
          ∃ a ∈ t.Attr, a.Key = "src" ∧ ∃ e, url.Parse a.Val = .error e)) ∧
    ((extractJSScriptURLs url Tokenize htmlString baseURL).2 ≠ none →
      (extractJSScriptURLs url Tokenize htmlString baseURL).1 = []) ∧
    (∀ (before after : List Token) (stop : Token), stop.Kind = .ErrorToken →
      extractJSScriptURLs url (fun _ => before ++ stop :: after) htmlString baseURL =
        extractJSScriptURLs url (fun _ => before) htmlString baseURL) ∧
    (∀ base, url.Parse baseURL = .ok base →
      extractJSScriptURLs url (fun _ => []) htmlString baseURL = ([], none)) ∧
    (∀ base, url.Parse baseURL = .ok base →
      (extractJSScriptURLs url Tokenize htmlString baseURL).2 = none →
      List.Forall₂ (fun v out => ∃ u, url.Parse v = .ok u ∧
          out = url.Render (url.ResolveReference base u))
        (scriptSrcs (documentTokens (Tokenize htmlString)))
        (extractJSScriptURLs url Tokenize htmlString baseURL).1) ∧
    (∀ (before after : List Token) (stop : Token) (base : U), stop.Kind = .ErrorToken →
      url.Parse baseURL = .ok base →
      (∀ v ∈ scriptSrcs (documentTokens before), ∃ u, url.Parse v = .ok u) →
      (extractJSScriptURLs url (fun _ => before ++ stop :: after) htmlString baseURL).2 = none ∧
      List.Forall₂ (fun v out => ∃ u, url.Parse v = .ok u ∧
          out = url.Render (url.ResolveReference base u))
        (scriptSrcs (documentTokens before))
        (extractJSScriptURLs url (fun _ => before ++ stop :: after) htmlString baseURL).1) := by
  refine ⟨?_, ?_, ?_, ?_, ?_, ?_⟩
  · cases hb : url.Parse baseURL with
    | error e => simp [extractJSScriptURLs, hb]
    | ok base =>
      have hbad : (∃ e, resolveAll url base (scriptSrcs (documentTokens (Tokenize htmlString)))
            = .error e) ↔
          ∃ t ∈ documentTokens (Tokenize htmlString), isScriptTag t = true ∧
            ∃ a ∈ t.Attr, a.Key = "src" ∧ ∃ e, url.Parse a.Val = .error e := by
        rw [resolveAll_error_iff]
        constructor
        · rintro ⟨v, hv, e, he⟩
          obtain ⟨t, ht, hs, a, ha, hk, rfl⟩ := (mem_scriptSrcs _ v).mp hv
          exact ⟨t, ht, hs, a, ha, hk, e, he⟩
        · rintro ⟨t, ht, hs, a, ha, hk, e, he⟩
          exact ⟨a.Val, (mem_scriptSrcs _ _).mpr ⟨t, ht, hs, a, ha, hk, rfl⟩, e, he⟩
      simp only [extractJSScriptURLs, hb, scanTokens_eq, false_or, reduceCtorEq, exists_false]
      rw [← hbad]
      cases hr : resolveAll url base (scriptSrcs (documentTokens (Tokenize htmlString))) <;> simp
  · cases hb : url.Parse baseURL with
    | error e => simp [extractJSScriptURLs, hb]
    | ok base =>
      simp only [extractJSScriptURLs, hb, scanTokens_eq]
      cases hr : resolveAll url base (scriptSrcs (documentTokens (Tokenize htmlString))) <;> simp
  · intro before after stop hstop
    cases hb : url.Parse baseURL with
    | error e => simp [extractJSScriptURLs, hb]
    | ok base =>
      simp only [extractJSScriptURLs, hb, scanTokens_eq, documentTokens_append_stop _ _ _ hstop]
  · intro base hb
    simp [extractJSScriptURLs, hb, scanTokens]
  · intro base hb
    simp only [extractJSScriptURLs, hb, scanTokens_eq]
    cases hr : resolveAll url base (scriptSrcs (documentTokens (Tokenize htmlString))) with
    | error e => simp
    | ok outs =>
      intro _
      simpa using resolveAll_forall₂ url base _ outs hr
  · intro before after stop base hstop hb hsrc
    obtain ⟨outs, ho, hf⟩ := resolveAll_ok url base _ hsrc
    have hres : extractJSScriptURLs url (fun _ => before ++ stop :: after) htmlString baseURL =
        (outs, none) := by
      simp [extractJSScriptURLs, hb, scanTokens_eq, documentTokens_append_stop _ _ _ hstop, ho]
    rw [hres]
    exact ⟨rfl, hf⟩

/-- C3 on three streams with base `https://example.com/app/index.html`: a script tag
followed by an `ErrorToken` and a script tag with the unparsable `src` `%zz` gives the URL
of the first tag and no error; the same two script tags without the `ErrorToken` between
them give the error of `%zz` and no URL; and an unparsable base gives an error and no
URL. -/
theorem C3_error_iff_unparsable_reference_witness :
    extractJSScriptURLs exampleURL
        (fun _ => [scriptTag ["js/app.js"]] ++
          { Kind := .ErrorToken, Data := "", Attr := [] } :: [scriptTag ["%zz"]])
        "<html>" "https://example.com/app/index.html" =
      (["https://example.com/app/js/app.js"], none) ∧
    extractJSScriptURLs exampleURL (fun _ => [scriptTag ["js/app.js"], scriptTag ["%zz"]])
        "<html>" "https://example.com/app/index.html" =
      ([], some "parse \"%zz\": invalid URL escape \"%zz\"") ∧
    extractJSScriptURLs exampleURL (fun _ => [scriptTag ["js/app.js"]]) "<html>" "%zz" =
      ([], some "parse \"%zz\": invalid URL escape \"%zz\"") ∧
    (extractJSScriptURLs exampleURL
        (fun _ => [scriptTag ["js/app.js"]] ++
          { Kind := .ErrorToken, Data := "", Attr := [] } :: [scriptTag ["%zz"]])
        "<html>" "https://example.com/app/index.html").2 = none := by
  refine ⟨by decide, by decide, by decide, ?_⟩
  refine ((C3_error_iff_unparsable_reference exampleURL (fun _ => []) "<html>"
    "https://example.com/app/index.html").2.2.2.2.2 [scriptTag ["js/app.js"]]
    [scriptTag ["%zz"]] { Kind := .ErrorToken, Data := "", Attr := [] } _ rfl rfl ?_).1
  intro v hv
  have hsrcs : scriptSrcs (documentTokens [scriptTag ["js/app.js"]]) = ["js/app.js"] := by
    decide
  rw [hsrcs, List.mem_singleton] at hv
  subst hv
  exact ⟨_, rfl⟩

/-! ## Theorems about configuration loading and invalid patterns -/

/-- Signatures without a match in front of a list are all evaluated and print nothing. -/
theorem matchLoop_append_unmatched (MatchString : RegexpMatchString) (content : String)
    (before rest : List JavaScriptSignature)
    (h : ∀ s ∈ before, (MatchString s.Regex content).1 = false) :
    matchLoop MatchString content (before ++ rest) =
      { printed := (matchLoop MatchString content rest).printed,
        evaluated := before.map (fun s => s.Regex) ++
          (matchLoop MatchString content rest).evaluated } := by
  induction before with
  | nil => simp
  | cons s more ih =>
    have hs : (MatchString s.Regex content).1 = false := h s (List.mem_cons_self s more)
    have ih2 := ih (fun t ht => h t (List.mem_cons_of_mem s ht))
    simp [matchLoop, hs, ih2]

/-- The literal matcher reports no match together with an error, as `regexp.MatchString`
does. -/
theorem literalMatchString_error_unmatched (p c : String)
    (h : (literalMatchString p c).2 ≠ none) : (literalMatchString p c).1 = false := by
  unfold literalMatchString at h ⊢
  by_cases hp : (p.toList.all fun c => !regexpMetaChars.contains c) = true
  · rw [if_pos hp] at h
    exact absurd rfl h
  · rw [if_neg hp]

/-- C5, amended. Configuration loading does not compile the patterns: `readConfig` succeeds
with the decoded configuration whenever decoding succeeds, whatever its patterns.  A
pattern that does not compile is handed to `regexp.MatchString` by the matching loop when
no earlier signature matches; its error is dropped and the signature counts as not
matching, so the loop goes on with the signatures after it. -/
theorem C5_invalid_pattern_skipped_at_match_time (DecodeFile : TomlDecodeFile)
    (configFile : String) (config : Configuration) (MatchString : RegexpMatchString)
    (content : String) (before after : List JavaScriptSignature) (sig : JavaScriptSignature)
    (hdecode : DecodeFile configFile = (config, none))
    (hlib : ∀ p c, (MatchString p c).2 ≠ none → (MatchString p c).1 = false)
    (hbad : (MatchString sig.Regex content).2 ≠ none)
    (hbefore : ∀ s ∈ before, (MatchString s.Regex content).1 = false) :
    readConfig DecodeFile configFile = (config, none) ∧
    (matchLoop MatchString content (before ++ sig :: after)).printed =
      (matchLoop MatchString content after).printed ∧
    (matchLoop MatchString content (before ++ sig :: after)).evaluated =
      before.map (fun s => s.Regex) ++ sig.Regex ::
        (matchLoop MatchString content after).evaluated := by
  have hsig : (MatchString sig.Regex content).1 = false := hlib _ _ hbad
  have hall : ∀ s ∈ before ++ [sig], (MatchString s.Regex content).1 = false := by
    intro s hs
    rcases List.mem_append.mp hs with h | h
    · exact hbefore s h
    · rw [List.mem_singleton] at h
      rw [h]
      exact hsig
  have hlist : before ++ sig :: after = (before ++ [sig]) ++ after := by simp
  refine ⟨by simp [readConfig, hdecode], ?_, ?_⟩
  · rw [hlist, matchLoop_append_unmatched _ _ _ _ hall]
  · rw [hlist, matchLoop_append_unmatched _ _ _ _ hall]
    simp

/-- C5, amended, on the configuration with the patterns `(` and `bar`: loading succeeds,
the pattern `(` is evaluated on the content, and `B` is printed. -/
theorem C5_invalid_pattern_skipped_at_match_time_witness :
    readConfig (fun _ => (brokenConfig, none)) "sigs.toml" = (brokenConfig, none) ∧
    (matchLoop literalMatchString "var bar = 2;"
        ([] ++ { Name := "Broken", Regex := "(" } :: [{ Name := "B", Regex := "bar" }])).printed =
      (matchLoop literalMatchString "var bar = 2;" [{ Name := "B", Regex := "bar" }]).printed ∧
    (matchLoop literalMatchString "var bar = 2;"
        ([] ++ { Name := "Broken", Regex := "(" } :: [{ Name := "B", Regex := "bar" }])).evaluated =
      ([] : List JavaScriptSignature).map (fun s => s.Regex) ++ "(" ::
        (matchLoop literalMatchString "var bar = 2;" [{ Name := "B", Regex := "bar" }]).evaluated :=
  C5_invalid_pattern_skipped_at_match_time (fun _ => (brokenConfig, none)) "sigs.toml"
    brokenConfig literalMatchString "var bar = 2;" [] [{ Name := "B", Regex := "bar" }]
    { Name := "Broken", Regex := "(" } rfl
    literalMatchString_error_unmatched (by decide) (by simp)

/-- C5 as stated fails on the configuration with the patterns `(` and `bar`: the pattern
`(` does not compile, yet `readConfig` returns the configuration without error, `main`
goes on to fetch the page and start the goroutines, and the matching loop hands `(` to
`regexp.MatchString` for every script. -/
theorem C5_counterexample :
    (literalMatchString "(" "var bar = 2;").2 ≠ none ∧
    { Name := "Broken", Regex := "(" } ∈ brokenConfig.Signatures ∧
    readConfig brokenConfigWorld.DecodeFile "sigs.toml" = (brokenConfig, none) ∧
    main exampleURL brokenConfigWorld "https://example.com/app/index.html" "sigs.toml" false
        "Mozilla/5.0" =
      .goroutines [[.Println "B"], [.Println "B"], [.Println "B"]] ∧
    (matchLoop literalMatchString "var bar = 2;" brokenConfig.Signatures).evaluated =
      ["(", "bar"] := by
  decide

/-! ## Theorems about the goroutines -/

/-- The loop prints the first-match name, when there is one. -/
theorem matchLoop_printed_eq (MatchString : RegexpMatchString) (content : String)
    (sigs : List JavaScriptSignature) :
    (matchLoop MatchString content sigs).printed =
      (firstMatchName MatchString sigs content).toList := by
  induction sigs with
  | nil => simp [matchLoop, firstMatchName]
  | cons s rest ih =>
    by_cases hm : (MatchString s.Regex content).1 = true
    · simp [matchLoop, firstMatchName, hm]
    · have hm' : (MatchString s.Regex content).1 = false := by simpa using hm
      simp only [firstMatchName] at ih
      simp [matchLoop, firstMatchName, hm', ih]

theorem stdoutOf_append (xs ys : List Event) :
    stdoutOf (xs ++ ys) = stdoutOf xs ++ stdoutOf ys := by
  simp [stdoutOf, List.filterMap_append]

theorem savesOf_append (xs ys : List Event) :
    savesOf (xs ++ ys) = savesOf xs ++ savesOf ys := by
  simp [savesOf, List.filterMap_append]

theorem stdoutOf_map_Println (lines : List String) :
    stdoutOf (lines.map Event.Println) = lines := by
  induction lines with
  | nil => rfl
  | cons l rest ih =>
    simp only [stdoutOf] at ih
    simp [stdoutOf, ih]

theorem savesOf_map_Println (lines : List String) :
    savesOf (lines.map Event.Println) = [] := by
  induction lines with
  | nil => rfl
  | cons l rest ih =>
    simp only [savesOf] at ih
    simp [savesOf, ih]

/-- The goroutine of a script whose fetch fails writes one log line and does nothing
else. -/
theorem worker_fetch_failed {U : Type} (MatchString : RegexpMatchString) (url : URLPackage U)
    (config : Configuration) (keepJS : Bool) (userAgent : String) (world : UnitWorld)
    (jsURL : String) (e : GoError)
    (hf : (fetchJavascript world.net jsURL userAgent).err = some e) :
    worker MatchString url config keepJS userAgent world jsURL =
      [.LogPrintf ("Error downloading JavaScript from " ++ jsURL ++ ": " ++ e ++ "\n")] := by
  unfold worker
  simp only [hf]

/-- The events that follow the matching loop in a goroutine: the save and its log line. -/
theorem worker_fetch_ok {U : Type} (MatchString : RegexpMatchString) (url : URLPackage U)
    (config : Configuration) (keepJS : Bool) (userAgent : String) (world : UnitWorld)
    (jsURL : String)
    (hf : (fetchJavascript world.net jsURL userAgent).err = none) :
    ∃ rest, stdoutOf rest = [] ∧
      savesOf rest = (if keepJS = true then
        [(jsURL, (fetchJavascript world.net jsURL userAgent).body)] else []) ∧
      (∀ j c calls, Event.Save j c calls ∈ rest → calls = (saveJavascript url world.fs j c).calls) ∧
      worker MatchString url config keepJS userAgent world jsURL =
        (matchLoop MatchString (fetchJavascript world.net jsURL userAgent).body
          config.Signatures).printed.map Event.Println ++ rest := by
  unfold worker
  simp only [hf]
  refine ⟨_, ?_, ?_, ?_, rfl⟩
  · cases keepJS with
    | false => simp [stdoutOf]
    | true =>
      cases hs : (saveJavascript url world.fs jsURL
        (fetchJavascript world.net jsURL userAgent).body).err <;> simp [stdoutOf]
  · cases keepJS with
    | false => simp [savesOf]
    | true =>
      cases hs : (saveJavascript url world.fs jsURL
        (fetchJavascript world.net jsURL userAgent).body).err <;> simp [savesOf]
  · intro j c calls hmem
    cases keepJS with
    | false => simp at hmem
    | true =>
      simp only [if_true, List.mem_cons] at hmem
      rcases hmem with heq | hmem
      · cases heq
        rfl
      · cases hs : (saveJavascript url world.fs jsURL
          (fetchJavascript world.net jsURL userAgent).body).err <;> simp [hs] at hmem

/-- The standard output of one goroutine: the first-match name of the fetched content, or
nothing when the fetch failed or nothing matched; the file system plays no part. -/
theorem stdoutOf_worker {U : Type} (MatchString : RegexpMatchString) (url : URLPackage U)
    (config : Configuration) (keepJS : Bool) (userAgent : String) (world : UnitWorld)
    (jsURL : String) :
    stdoutOf (worker MatchString url config keepJS userAgent world jsURL) =
      (expectedLine MatchString config userAgent (jsURL, world)).toList := by
  cases hf : (fetchJavascript world.net jsURL userAgent).err with
  | some e =>
    rw [worker_fetch_failed _ _ _ _ _ _ _ e hf]
    simp [expectedLine, hf, stdoutOf]
  | none =>
    obtain ⟨rest, h1, _, _, h4⟩ := worker_fetch_ok MatchString url config keepJS userAgent
      world jsURL hf
    rw [h4, stdoutOf_append, stdoutOf_map_Println, h1, matchLoop_printed_eq]
    simp [expectedLine, hf]

/-- The calls of `saveJavascript` of one goroutine: one call with the URL and the fetched
content when the fetch succeeded and files are kept, none otherwise; the signatures play no
part. -/
theorem savesOf_worker {U : Type} (MatchString : RegexpMatchString) (url : URLPackage U)
    (config : Configuration) (keepJS : Bool) (userAgent : String) (world : UnitWorld)
    (jsURL : String) :
    savesOf (worker MatchString url config keepJS userAgent world jsURL) =
      (expectedSave keepJS userAgent (jsURL, world)).toList := by
  cases hf : (fetchJavascript world.net jsURL userAgent).err with
  | some e =>
    rw [worker_fetch_failed _ _ _ _ _ _ _ e hf]
    simp [expectedSave, hf, savesOf]
  | none =>
    obtain ⟨rest, _, h2, _, h4⟩ := worker_fetch_ok MatchString url config keepJS userAgent
      world jsURL hf
    rw [h4, savesOf_append, savesOf_map_Println, h2]
    cases keepJS <;> simp [expectedSave, hf]

/-- C7. Persistence is independent of the match outcome: in the goroutine of a script URL,
`saveJavascript` is called, once and with exactly the fetched content, if and only if the
fetch succeeded and `keepJS` is set, whatever the signatures and the matcher; its
file-system calls are those of `saveJavascript`; and the lines printed do not depend on the
file system, so a failing save leaves the name already printed as it is. -/
theorem C7_save_independent_of_match {U : Type} (MatchString : RegexpMatchString)
    (url : URLPackage U) (config : Configuration) (keepJS : Bool) (userAgent : String)
    (world : UnitWorld) (jsURL : String) :
    savesOf (worker MatchString url config keepJS userAgent world jsURL) =
      (if (fetchJavascript world.net jsURL userAgent).err = none ∧ keepJS = true then
        [(jsURL, (fetchJavascript world.net jsURL userAgent).body)] else []) ∧
    (∀ (MatchString2 : RegexpMatchString) (config2 : Configuration),
      savesOf (worker MatchString2 url config2 keepJS userAgent world jsURL) =
        savesOf (worker MatchString url config keepJS userAgent world jsURL)) ∧
    (∀ j c calls, Event.Save j c calls ∈ worker MatchString url config keepJS userAgent world jsURL →
      calls = (saveJavascript url world.fs j c).calls) ∧
    (∀ (fs2 : FileSystem),
      stdoutOf (worker MatchString url config keepJS userAgent { world with fs := fs2 } jsURL) =
        stdoutOf (worker MatchString url config keepJS userAgent world jsURL)) ∧
    ((fetchJavascript world.net jsURL userAgent).err = none →
      ∃ rest, stdoutOf rest = [] ∧
        worker MatchString url config keepJS userAgent world jsURL =
          (matchLoop MatchString (fetchJavascript world.net jsURL userAgent).body
            config.Signatures).printed.map Event.Println ++ rest) := by
  refine ⟨?_, ?_, ?_, ?_, ?_⟩
  · rw [savesOf_worker]
    unfold expectedSave
    split <;> rfl
  · intro MatchString2 config2
    rw [savesOf_worker, savesOf_worker]
  · intro j c calls hmem
    cases hf : (fetchJavascript world.net jsURL userAgent).err with
    | some e =>
      rw [worker_fetch_failed _ _ _ _ _ _ _ e hf] at hmem
      simp at hmem
    | none =>
      obtain ⟨rest, _, _, h3, h4⟩ := worker_fetch_ok MatchString url config keepJS userAgent
        world jsURL hf
      rw [h4, List.mem_append, List.mem_map] at hmem
      rcases hmem with ⟨l, _, hl⟩ | hmem
      · cases hl
      · exact h3 j c calls hmem
  · intro fs2
    rw [stdoutOf_worker, stdoutOf_worker]
    rfl
  · intro hf
    obtain ⟨rest, h1, _, _, h4⟩ := worker_fetch_ok MatchString url config keepJS userAgent
      world jsURL hf
    exact ⟨rest, h1, h4⟩

/-- C7 on a script that matches B and whose save fails: the name is printed, then
`saveJavascript` is called with the fetched content, then its failure is logged; the
output is the one of a run whose save succeeds. -/
theorem C7_save_independent_of_match_witness :
    worker literalMatchString exampleURL exampleConfig true "Mozilla/5.0"
        { net := answerNet 200 "var bar = 2;", fs := readOnlyFS }
        "https://cdn.example.net/lib/jquery.js" =
      [.Println "B",
       .Save "https://cdn.example.net/lib/jquery.js" "var bar = 2;"
         [.MkdirAll "cdn.example.net" 0o755,
          .WriteFile "cdn.example.net/jquery.js" "var bar = 2;" 0o644],
       .LogPrintf ("Error saving JavaScript from https://cdn.example.net/lib/jquery.js: " ++
         "open cdn.example.net/jquery.js: permission denied\n")] ∧
    stdoutOf (worker literalMatchString exampleURL exampleConfig true "Mozilla/5.0"
        { net := answerNet 200 "var bar = 2;", fs := healthyFS }
        "https://cdn.example.net/lib/jquery.js") =
      stdoutOf (worker literalMatchString exampleURL exampleConfig true "Mozilla/5.0"
        { net := answerNet 200 "var bar = 2;", fs := readOnlyFS }
        "https://cdn.example.net/lib/jquery.js") ∧
    savesOf (worker literalMatchString exampleURL { Signatures := [] } true "Mozilla/5.0"
        { net := answerNet 200 "var bar = 2;", fs := readOnlyFS }
        "https://cdn.example.net/lib/jquery.js") =
      [("https://cdn.example.net/lib/jquery.js", "var bar = 2;")] :=
  ⟨by decide,
   (C7_save_independent_of_match literalMatchString exampleURL exampleConfig true "Mozilla/5.0"
      { net := answerNet 200 "var bar = 2;", fs := readOnlyFS }
      "https://cdn.example.net/lib/jquery.js").2.2.2.1 healthyFS,
   by decide⟩

/-! ## Theorems about the fan-out -/

/-- A merged run holds the events of the traces, each as often as they occur. -/
theorem Interleaving.perm_flatten {α : Type} {ts : List (List α)} {tr : List α}
    (h : Interleaving ts tr) : tr.Perm ts.flatten := by
  induction h with
  | done ts hall =>
    have : ts.flatten = [] := by
      rw [List.flatten_eq_nil_iff]
      exact hall
    rw [this]
  | step before after e t tr _ ih =>
    have h1 : (before ++ (e :: t) :: after).flatten =
        before.flatten ++ e :: (t ++ after.flatten) := by simp
    have h2 : (before ++ t :: after).flatten = before.flatten ++ (t ++ after.flatten) := by simp
    rw [h1]
    rw [h2] at ih
    exact (List.Perm.cons e ih).trans List.perm_middle.symm

/-- One more goroutine without events changes no merged run. -/
theorem Interleaving.cons_nil {α : Type} {ts : List (List α)} {tr : List α}
    (h : Interleaving ts tr) : Interleaving ([] :: ts) tr := by
  induction h with
  | done ts hall =>
    apply Interleaving.done
    intro t ht
    rcases List.mem_cons.mp ht with rfl | ht
    · rfl
    · exact hall t ht
  | step before after e t tr _ ih =>
    exact Interleaving.step ([] :: before) after e t tr ih

/-- The goroutines can always run to their end: running them one after the other is a
merged run. -/
theorem Interleaving.sequential {α : Type} (ts : List (List α)) :
    Interleaving ts ts.flatten := by
  induction ts with
  | nil => exact Interleaving.done [] (by simp)
  | cons t rest ih =>
    induction t with
    | nil => simpa using ih.cons_nil
    | cons e t iht =>
      have h := Interleaving.step [] rest e t (t ++ rest.flatten) (by simpa using iht)
      simpa using h

theorem stdoutOf_fanOut {U : Type} (MatchString : RegexpMatchString) (url : URLPackage U)
    (config : Configuration) (keepJS : Bool) (userAgent : String)
    (units : List (String × UnitWorld)) :
    stdoutOf (fanOut MatchString url config keepJS userAgent units).flatten =
      units.filterMap (expectedLine MatchString config userAgent) := by
  induction units with
  | nil => rfl
  | cons unit rest ih =>
    simp only [fanOut, List.map_cons, List.flatten_cons, stdoutOf_append, stdoutOf_worker] at ih ⊢
    rw [ih, List.filterMap_cons]
    cases expectedLine MatchString config userAgent unit <;> simp

theorem savesOf_fanOut {U : Type} (MatchString : RegexpMatchString) (url : URLPackage U)
    (config : Configuration) (keepJS : Bool) (userAgent : String)
    (units : List (String × UnitWorld)) :
    savesOf (fanOut MatchString url config keepJS userAgent units).flatten =
      units.filterMap (expectedSave keepJS userAgent) := by
  induction units with
  | nil => rfl
  | cons unit rest ih =>
    simp only [fanOut, List.map_cons, List.flatten_cons, savesOf_append, savesOf_worker] at ih ⊢
    rw [ih, List.filterMap_cons]
    cases expectedSave keepJS userAgent unit <;> simp

/-- Removing the script URLs whose fetch fails changes none of the expected lines. -/
theorem filterMap_expectedLine_filter (MatchString : RegexpMatchString)
    (config : Configuration) (userAgent : String) (units : List (String × UnitWorld)) :
    (units.filter (fetchSucceeds userAgent)).filterMap (expectedLine MatchString config userAgent) =
      units.filterMap (expectedLine MatchString config userAgent) := by
  induction units with
  | nil => rfl
  | cons unit rest ih =>
    by_cases hf : (fetchJavascript unit.2.net unit.1 userAgent).err = none
    · simp [List.filter_cons, fetchSucceeds, hf, List.filterMap_cons, ih]
    · simp [List.filter_cons, fetchSucceeds, hf, List.filterMap_cons, ih, expectedLine]

/-- Removing the script URLs whose fetch fails changes none of the expected saves. -/
theorem filterMap_expectedSave_filter (keepJS : Bool) (userAgent : String)
    (units : List (String × UnitWorld)) :
    (units.filter (fetchSucceeds userAgent)).filterMap (expectedSave keepJS userAgent) =
      units.filterMap (expectedSave keepJS userAgent) := by
  induction units with
  | nil => rfl
  | cons unit rest ih =>
    by_cases hf : (fetchJavascript unit.2.net unit.1 userAgent).err = none
    · simp [List.filter_cons, fetchSucceeds, hf, List.filterMap_cons, ih]
    · simp [List.filter_cons, fetchSucceeds, hf, List.filterMap_cons, ih, expectedSave]

/-- C4. Failure of one script's fetch is isolated.  For every list of script URLs, each
with the network and file system its goroutine meets: the goroutines can all run to their
end; in every merged run, the multiset of names written to standard output is the multiset
of first-match names of the URLs whose fetch succeeded and whose content matches, and the
multiset of saves is the one of the URLs whose fetch succeeded (when files are kept); a URL
whose fetch fails contributes no output line and no save; and leaving the failing URLs out
changes neither multiset. -/
theorem C4_fetch_failure_isolated {U : Type} (MatchString : RegexpMatchString)
    (url : URLPackage U) (config : Configuration) (keepJS : Bool) (userAgent : String)
    (units : List (String × UnitWorld)) :
    (∃ tr, Interleaving (fanOut MatchString url config keepJS userAgent units) tr) ∧
    (∀ tr, Interleaving (fanOut MatchString url config keepJS userAgent units) tr →
      (↑(stdoutOf tr) : Multiset String) =
        ↑(units.filterMap (expectedLine MatchString config userAgent)) ∧
      (↑(savesOf tr) : Multiset (String × String)) =
        ↑(units.filterMap (expectedSave keepJS userAgent))) ∧
    (∀ unit ∈ units, (fetchJavascript unit.2.net unit.1 userAgent).err ≠ none →
      stdoutOf (worker MatchString url config keepJS userAgent unit.2 unit.1) = [] ∧
      savesOf (worker MatchString url config keepJS userAgent unit.2 unit.1) = []) ∧
    (∀ tr tr2, Interleaving (fanOut MatchString url config keepJS userAgent units) tr →
      Interleaving (fanOut MatchString url config keepJS userAgent
        (units.filter (fetchSucceeds userAgent))) tr2 →
      (↑(stdoutOf tr) : Multiset String) = ↑(stdoutOf tr2) ∧
      (↑(savesOf tr) : Multiset (String × String)) = ↑(savesOf tr2)) := by
  have key : ∀ (us : List (String × UnitWorld)) (tr : List Event),
      Interleaving (fanOut MatchString url config keepJS userAgent us) tr →
      (↑(stdoutOf tr) : Multiset String) =
        ↑(us.filterMap (expectedLine MatchString config userAgent)) ∧
      (↑(savesOf tr) : Multiset (String × String)) =
        ↑(us.filterMap (expectedSave keepJS userAgent)) := by
    intro us tr h
    have hp := h.perm_flatten
    constructor
    · rw [← stdoutOf_fanOut MatchString url config keepJS userAgent us]
      exact Multiset.coe_eq_coe.mpr (hp.filterMap _)
    · rw [← savesOf_fanOut MatchString url config keepJS userAgent us]
      exact Multiset.coe_eq_coe.mpr (hp.filterMap _)
  refine ⟨⟨_, Interleaving.sequential _⟩, key units, ?_, ?_⟩
  · intro unit _ hf
    rw [stdoutOf_worker, savesOf_worker]
    simp [expectedLine, expectedSave, hf]
  · intro tr tr2 h h2
    obtain ⟨a1, a2⟩ := key units tr h
    obtain ⟨b1, b2⟩ := key _ tr2 h2
    rw [a1, a2, b1, b2, filterMap_expectedLine_filter, filterMap_expectedSave_filter]
    exact ⟨rfl, rfl⟩

/-- C4 on three script URLs of which the second cannot be fetched: the goroutines run to
their end, the first and the third contribute their names A and B and their saves, the
second contributes a log line only. -/
theorem C4_fetch_failure_isolated_witness :
    (∃ tr, Interleaving (fanOut literalMatchString exampleURL exampleConfig true "Mozilla/5.0"
        exampleUnits) tr ∧
      (↑(stdoutOf tr) : Multiset String) = ↑["A", "B"] ∧
      (↑(savesOf tr) : Multiset (String × String)) =
        ↑[("https://example.com/app/js/app.js", "var foo = 1;"),
          ("https://cdn.example.net/lib/jquery.js", "var bar = 2;")]) ∧
    worker literalMatchString exampleURL exampleConfig true "Mozilla/5.0"
        { net := downNet "dial tcp: lookup example.com: no such host", fs := healthyFS }
        "https://example.com/app/js/vendor.js" =
      [.LogPrintf ("Error downloading JavaScript from https://example.com/app/js/vendor.js: " ++
        "dial tcp: lookup example.com: no such host\n")] := by
  have h := C4_fetch_failure_isolated literalMatchString exampleURL exampleConfig true
    "Mozilla/5.0" exampleUnits
  obtain ⟨tr, htr⟩ := h.1
  obtain ⟨h1, h2⟩ := h.2.1 tr htr
  refine ⟨⟨tr, htr, ?_, ?_⟩, by decide⟩
  · rw [h1]
    decide
  · rw [h2]
    decide

/-! ## Theorems about saving -/

theorem splitSlash_of_not_mem (l : List Char) (h : '/' ∉ l) : splitSlash l = [l] := by
  induction l with
  | nil => rfl
  | cons c cs ih =>
    have hc : c ≠ '/' := fun hc => h (by simp [hc])
    have hcs : '/' ∉ cs := fun hm => h (List.mem_cons_of_mem c hm)
    simp [splitSlash, hc, ih hcs]

theorem splitSlash_append (a b : List Char) (h : '/' ∉ a) :
    splitSlash (a ++ '/' :: b) = a :: splitSlash b := by
  induction a with
  | nil => simp [splitSlash]
  | cons c cs ih =>
    have hc : c ≠ '/' := fun hc => h (by simp [hc])
    have hcs : '/' ∉ cs := fun hm => h (List.mem_cons_of_mem c hm)
    simp [splitSlash, hc, ih hcs]

/-- Two plain path elements joined by a slash are a clean path. -/
theorem cleanChars_pair (a b : List Char)
    (ha : a ≠ [] ∧ a ≠ ['.'] ∧ a ≠ ['.', '.'] ∧ '/' ∉ a)
    (hb : b ≠ [] ∧ b ≠ ['.'] ∧ b ≠ ['.', '.'] ∧ '/' ∉ b) :
    cleanChars (a ++ '/' :: b) = a ++ '/' :: b := by
  obtain ⟨ha1, ha2, ha3, ha4⟩ := ha
  obtain ⟨hb1, hb2, hb3, hb4⟩ := hb
  have hhead : (a ++ '/' :: b).head? ≠ some '/' := by
    cases a with
    | nil => exact absurd rfl ha1
    | cons c cs =>
      intro hc
      apply ha4
      simp only [List.cons_append, List.head?_cons, Option.some.injEq] at hc
      simp [hc]
  have hhead2 : a.head? ≠ some '/' := by
    cases a with
    | nil => exact absurd rfl ha1
    | cons c cs =>
      intro hc
      apply ha4
      simp only [List.head?_cons, Option.some.injEq] at hc
      simp [hc]
  have hne : a ++ '/' :: b ≠ [] := by simp
  unfold cleanChars
  simp [hne, hhead, hhead2, splitSlash_append a b ha4, splitSlash_of_not_mem b hb4, cleanElems,
    ha1, ha2, ha3, hb1, hb2, hb3, List.intercalate, List.intersperse]

theorem toList_ne_of_ne (s : String) (l : List Char) (h : s ≠ String.mk l) : s.toList ≠ l := by
  intro hc
  apply h
  apply String.ext
  simpa using hc

/-- On a host name and a file name that are plain names, `filepath.Join` puts a slash
between them and changes nothing else. -/
theorem Join_plain (d f : String) (hd : plainName d) (hf : plainName f) :
    Join [d, f] = d ++ "/" ++ f := by
  obtain ⟨hd1, hd2, hd3, hd4⟩ := hd
  obtain ⟨hf1, hf2, hf3, hf4⟩ := hf
  have hc := cleanChars_pair d.toList f.toList
    ⟨toList_ne_of_ne d [] hd1, toList_ne_of_ne d ['.'] hd2, toList_ne_of_ne d ['.', '.'] hd3, hd4⟩
    ⟨toList_ne_of_ne f [] hf1, toList_ne_of_ne f ['.'] hf2, toList_ne_of_ne f ['.', '.'] hf3, hf4⟩
  have hlist : (d ++ "/" ++ f).toList = d.toList ++ '/' :: f.toList := by
    simp [String.toList, String.data_append]
  have hjoin : Join [d, f] = Clean (d ++ "/" ++ f) := by
    simp [Join, hd1, String.intercalate, String.intercalate.go]
  rw [hjoin, Clean, hlist, hc]
  apply String.ext
  simp [String.data_append]

/-- The result of `filepath.Base` is `/` or has no slash. -/
theorem Base_slash_or_no_slash (path : String) : Base path = "/" ∨ '/' ∉ (Base path).toList := by
  unfold Base
  by_cases h : path = ""
  · right
    simp [h]
  · simp only [h, if_false]
    split
    · left; rfl
    · right
      intro hm
      simp only [String.toList, List.mem_reverse] at hm
      have := List.mem_takeWhile_imp hm
      simp at this

/-- The result of `filepath.Base` is never empty. -/
theorem Base_ne_empty (path : String) : Base path ≠ "" := by
  unfold Base
  by_cases h : path = ""
  · simp [h]
  · simp only [h, if_false]
    split
    · decide
    · rename_i hl
      intro hc
      apply hl
      have := congrArg String.data hc
      simpa using this

/-- A final path segment other than `/`, `.` and `..` is a plain name. -/
theorem Base_plain (path : String)
    (h : Base path ≠ "/" ∧ Base path ≠ "." ∧ Base path ≠ "..") : plainName (Base path) :=
  ⟨Base_ne_empty path, h.2.1, h.2.2, (Base_slash_or_no_slash path).resolve_left h.1⟩

/-- A path of two elements determines both. -/
theorem pair_path_inj (a b c d : List Char) (ha : '/' ∉ a) (hc : '/' ∉ c)
    (h : a ++ '/' :: b = c ++ '/' :: d) : a = c ∧ b = d := by
  have h1 := congrArg splitSlash h
  rw [splitSlash_append a b ha, splitSlash_append c d hc] at h1
  have h2 := List.cons.inj h1
  refine ⟨h2.1, ?_⟩
  rw [h2.1] at h
  exact List.cons.inj (List.append_cancel_left h) |>.2

theorem pair_path_string_inj (d1 f1 d2 f2 : String) (h1 : '/' ∉ d1.toList)
    (h2 : '/' ∉ d2.toList) (h : d1 ++ "/" ++ f1 = d2 ++ "/" ++ f2) : d1 = d2 ∧ f1 = f2 := by
  have hl := congrArg String.toList h
  have e1 : (d1 ++ "/" ++ f1).toList = d1.toList ++ '/' :: f1.toList := by
    simp [String.toList, String.data_append]
  have e2 : (d2 ++ "/" ++ f2).toList = d2.toList ++ '/' :: f2.toList := by
    simp [String.toList, String.data_append]
  rw [e1, e2] at hl
  obtain ⟨ha, hb⟩ := pair_path_inj _ _ _ _ h1 h2 hl
  exact ⟨String.ext ha, String.ext hb⟩

/-- C8, amended. For every script URL that parses, whose hostname is a plain name (not
empty, not `.` or `..`, without `/`) and whose path has a final segment other than `/`, `.`
and `..`: `getFilename` returns the hostname and that segment, and `saveJavascript`, when
the directory can be made, makes the directory named after the hostname and writes the
content to the path of exactly two elements, hostname and final segment.  Consequently two
such URLs with the same hostname and distinct final segments are written to distinct files
in one directory, and two such URLs with different hostnames to different directories. -/
theorem C8_saved_under_hostname_and_final_segment {U : Type} (url : URLPackage U)
    (fs : FileSystem) (jsURL content : String) (u : U)
    (hparse : url.Parse jsURL = .ok u)
    (hhost : plainName (url.Hostname u))
    (hfile : Base (url.Path u) ≠ "/" ∧ Base (url.Path u) ≠ "." ∧ Base (url.Path u) ≠ "..")
    (hmk : fs.MkdirAll (url.Hostname u) 0o755 = none) :
    getFilename url jsURL = (url.Hostname u, Base (url.Path u), none) ∧
    (saveJavascript url fs jsURL content).calls =
      [.MkdirAll (url.Hostname u) 0o755,
       .WriteFile (url.Hostname u ++ "/" ++ Base (url.Path u)) content 0o644] ∧
    (saveJavascript url fs jsURL content).err =
      fs.WriteFile (url.Hostname u ++ "/" ++ Base (url.Path u)) content 0o644 ∧
    splitSlash (url.Hostname u ++ "/" ++ Base (url.Path u)).toList =
      [(url.Hostname u).toList, (Base (url.Path u)).toList] ∧
    (∀ (u2 : U), plainName (url.Hostname u2) →
      (url.Hostname u2 = url.Hostname u → Base (url.Path u2) ≠ Base (url.Path u) →
        url.Hostname u2 ++ "/" ++ Base (url.Path u2) ≠
          url.Hostname u ++ "/" ++ Base (url.Path u)) ∧
      (url.Hostname u2 ≠ url.Hostname u →
        url.Hostname u2 ++ "/" ++ Base (url.Path u2) ≠
          url.Hostname u ++ "/" ++ Base (url.Path u))) := by
  have hplain := Base_plain (url.Path u) hfile
  have hjoin := Join_plain (url.Hostname u) (Base (url.Path u)) hhost hplain
  have hget : getFilename url jsURL = (url.Hostname u, Base (url.Path u), none) := by
    simp [getFilename, hparse]
  refine ⟨hget, ?_, ?_, ?_, ?_⟩
  · unfold saveJavascript
    simp only [hget, hmk, hjoin]
    cases fs.WriteFile (url.Hostname u ++ "/" ++ Base (url.Path u)) content 0o644 <;> rfl
  · unfold saveJavascript
    simp only [hget, hmk, hjoin]
    cases hw : fs.WriteFile (url.Hostname u ++ "/" ++ Base (url.Path u)) content 0o644 <;> rfl
  · have hlist : (url.Hostname u ++ "/" ++ Base (url.Path u)).toList =
        (url.Hostname u).toList ++ '/' :: (Base (url.Path u)).toList := by
      simp [String.toList, String.data_append]
    rw [hlist, splitSlash_append _ _ hhost.2.2.2, splitSlash_of_not_mem _ hplain.2.2.2]
  · intro u2 hhost2
    constructor
    · intro _ hne heq
      exact hne (pair_path_string_inj _ _ _ _ hhost2.2.2.2 hhost.2.2.2 heq).2
    · intro hne heq
      exact hne (pair_path_string_inj _ _ _ _ hhost2.2.2.2 hhost.2.2.2 heq).1

/-- C8, amended, on `https://example.com/app/js/app.js`: the directory `example.com` is
made and the content is written to `example.com/app.js`; `vendor.js` of the same host goes
to another file of that directory. -/
theorem C8_saved_under_hostname_and_final_segment_witness :
    exampleURL.Parse "https://example.com/app/js/app.js" =
      .ok { scheme := some "https", authority := some "example.com",
            path := "/app/js/app.js", query := none, fragment := none } ∧
    (saveJavascript exampleURL healthyFS "https://example.com/app/js/app.js"
        "var foo = 1;").calls =
      [.MkdirAll "example.com" 0o755, .WriteFile "example.com/app.js" "var foo = 1;" 0o644] ∧
    (saveJavascript exampleURL healthyFS "https://example.com/app/js/vendor.js"
        "var v;").calls =
      [.MkdirAll "example.com" 0o755, .WriteFile "example.com/vendor.js" "var v;" 0o644] ∧
    (saveJavascript exampleURL healthyFS "https://cdn.example.net/lib/jquery.js"
        "var bar = 2;").calls =
      [.MkdirAll "cdn.example.net" 0o755,
       .WriteFile "cdn.example.net/jquery.js" "var bar = 2;" 0o644] :=
  ⟨rfl,
   (C8_saved_under_hostname_and_final_segment exampleURL healthyFS
      "https://example.com/app/js/app.js" "var foo = 1;"
      { scheme := some "https", authority := some "example.com", path := "/app/js/app.js",
        query := none, fragment := none }
      rfl ⟨by decide, by decide, by decide, by decide⟩ ⟨by decide, by decide, by decide⟩
      rfl).2.1,
   by decide, by decide⟩

/-- C8 as stated fails on the script URL `https://example.com/`, which parses: its path
has no final segment, `getFilename` returns `/` as file name, and `saveJavascript` hands
`os.WriteFile` the path `example.com`, the directory it has just made and a path of one
element, so that the write fails and nothing is saved. -/
theorem C8_counterexample :
    exampleURL.Parse "https://example.com/" =
      .ok { scheme := some "https", authority := some "example.com", path := "/",
            query := none, fragment := none } ∧
    getFilename exampleURL "https://example.com/" = ("example.com", "/", none) ∧
    saveJavascript exampleURL hostDirFS "https://example.com/" "<html>" =
      { err := some "open example.com: is a directory",
        calls := [.MkdirAll "example.com" 0o755, .WriteFile "example.com" "<html>" 0o644] } ∧
    splitSlash "example.com".toList = ["example.com".toList] :=
  ⟨rfl, by decide, by decide, by decide⟩

/-! ## Theorems about the resolved URLs -/

/-- The resolver of the specification on parsed URLs: the result has the scheme of the
base unless the reference has one, the authority of the base unless the reference has a
scheme or an authority, and is the reference with its path normalized when the reference
has a scheme. -/
theorem resolveReference_spec (B R : RefURL) (habs : B.isAbsolute = true) :
    (resolveReference B R).isAbsolute = true ∧
    (R.scheme = none → (resolveReference B R).scheme = B.scheme) ∧
    (R.scheme = none → R.authority = none →
      (resolveReference B R).authority = B.authority) ∧
    (R.scheme ≠ none →
      resolveReference B R = { R with path := removeDotSegments R.path }) := by
  obtain ⟨rs, ra, rp, rq, rf⟩ := R
  cases rs with
  | some s => simp [resolveReference, RefURL.isAbsolute]
  | none =>
    cases ra with
    | some a =>
      simp only [RefURL.isAbsolute] at habs
      simp [resolveReference, RefURL.isAbsolute, habs]
    | none =>
      simp only [RefURL.isAbsolute] at habs
      simp only [resolveReference, RefURL.isAbsolute]
      split
      · simp [habs]
      · split <;> simp [habs]

/-- C9. For every base URL B that parses to a URL with a scheme and every token stream
whose script `src` values parse, the URLs returned by `extractJSScriptURLs` are, one for
every `src` value R in order, the string of the resolution of R against B, and this
resolved URL is absolute, has the scheme of B unless R has a scheme, has the authority of B
unless R has a scheme or an authority of its own, and is R itself with its path normalized
when R is absolute. -/
theorem C9_resolved_against_base (Parse : String → Except GoError RefURL)
    (Tokenize : HtmlTokenizer) (htmlString baseURL : String) (B : RefURL)
    (hbase : Parse baseURL = .ok B) (habs : B.isAbsolute = true)
    (hsrc : ∀ v ∈ scriptSrcs (documentTokens (Tokenize htmlString)), ∃ R, Parse v = .ok R) :
    List.Forall₂
      (fun v out => ∃ R, Parse v = .ok R ∧ out = recompose (resolveReference B R) ∧
        (resolveReference B R).isAbsolute = true ∧
        (R.scheme = none → (resolveReference B R).scheme = B.scheme) ∧
        (R.scheme = none → R.authority = none →
          (resolveReference B R).authority = B.authority) ∧
        (R.scheme ≠ none →
          resolveReference B R = { R with path := removeDotSegments R.path }))
      (scriptSrcs (documentTokens (Tokenize htmlString)))
      (extractJSScriptURLs (specURLPackage Parse) Tokenize htmlString baseURL).1 := by
  obtain ⟨outs, ho, hf⟩ := resolveAll_ok (specURLPackage Parse) B _ hsrc
  have hres : extractJSScriptURLs (specURLPackage Parse) Tokenize htmlString baseURL =
      (outs, none) := by
    have hb : (specURLPackage Parse).Parse baseURL = .ok B := hbase
    simp [extractJSScriptURLs, hb, scanTokens_eq, ho]
  rw [hres]
  refine List.Forall₂.imp ?_ hf
  rintro v out ⟨R, hR, hout⟩
  exact ⟨R, hR, hout, resolveReference_spec B R habs⟩

/-- C9 on the example page with base `https://example.com/app/index.html`: the relative
`js/app.js` becomes `https://example.com/app/js/app.js`, with scheme and authority of the
base, and the absolute `https://cdn.example.net/lib/jquery.js` is returned as it is. -/
theorem C9_resolved_against_base_witness :
    (extractJSScriptURLs (specURLPackage exampleParse) (fun _ => examplePage) "<html>"
        "https://example.com/app/index.html").1 =
      ["https://example.com/app/js/app.js", "https://cdn.example.net/lib/jquery.js",
       "https://cdn.example.net/lib/jquery.js"] ∧
    List.Forall₂
      (fun v out => ∃ R, exampleParse v = .ok R ∧
        out = recompose (resolveReference
          { scheme := some "https", authority := some "example.com",
            path := "/app/index.html", query := none, fragment := none } R) ∧
        (resolveReference
          { scheme := some "https", authority := some "example.com",
            path := "/app/index.html", query := none, fragment := none } R).isAbsolute = true ∧
        (R.scheme = none → (resolveReference
          { scheme := some "https", authority := some "example.com",
            path := "/app/index.html", query := none, fragment := none } R).scheme =
              some "https") ∧
        (R.scheme = none → R.authority = none → (resolveReference
          { scheme := some "https", authority := some "example.com",
            path := "/app/index.html", query := none, fragment := none } R).authority =
              some "example.com") ∧
        (R.scheme ≠ none → resolveReference
          { scheme := some "https", authority := some "example.com",
            path := "/app/index.html", query := none, fragment := none } R =
              { R with path := removeDotSegments R.path }))
      (scriptSrcs (documentTokens examplePage))
      (extractJSScriptURLs (specURLPackage exampleParse) (fun _ => examplePage) "<html>"
        "https://example.com/app/index.html").1 := by
  have hsrcs : scriptSrcs (documentTokens examplePage) =
      ["js/app.js", "https://cdn.example.net/lib/jquery.js",
       "https://cdn.example.net/lib/jquery.js"] := by decide
  refine ⟨by decide, ?_⟩
  refine C9_resolved_against_base exampleParse (fun _ => examplePage) "<html>"
    "https://example.com/app/index.html" _ rfl rfl ?_
  intro v hv
  rw [hsrcs] at hv
  simp only [List.mem_cons, List.mem_singleton, List.not_mem_nil, or_false] at hv
  rcases hv with rfl | rfl | rfl
  · exact ⟨_, rfl⟩
  · exact ⟨_, rfl⟩
  · exact ⟨_, rfl⟩

end JsSigScraper
